import Mathlib

/-!
Verification of the BVA decision-sync pipeline.

A shallow embedding of `lib/bva-api/client.ts`, `lib/bva-api/parser.ts` and
`lib/bva-api/sync.ts`.  External effects (HTTP fetch, the generative-text
service, `randomUUID`, `new Date()`, database write failures) are modelled as
explicit oracle functions threaded through the definitions; everything else is
a direct functional translation of the TypeScript source.
-/

set_option autoImplicit false

namespace BVA

/-! ## A model of JavaScript JSON values and `JSON.parse` -/

/-- JSON values, the possible results of `JSON.parse`. -/
inductive Json where
  | jnull : Json
  | jbool : Bool → Json
  | jnum : Rat → Json
  | jstr : String → Json
  | jarr : List Json → Json
  | jobj : List (String × Json) → Json

def lbrace : Char := Char.ofNat 123

def rbrace : Char := Char.ofNat 125

def lbrack : Char := Char.ofNat 91

def rbrack : Char := Char.ofNat 93

def isWsChar (c : Char) : Bool := c = ' ' || c = '\n' || c = '\t' || c = '\r'

def skipWs : List Char → List Char
  | [] => []
  | c :: cs => if isWsChar c then skipWs cs else c :: cs

def isDigitChar (c : Char) : Bool := '0' ≤ c && c ≤ '9'

def digitsToNat (ds : List Char) : Nat :=
  ds.foldl (fun a c => a * 10 + (c.toNat - 48)) 0

def takeDigits : List Char → List Char × List Char
  | [] => ([], [])
  | c :: cs =>
    if isDigitChar c then
      let r := takeDigits cs
      (c :: r.1, r.2)
    else ([], c :: cs)

def hexVal (c : Char) : Option Nat :=
  if isDigitChar c then some (c.toNat - 48)
  else if 'a' ≤ c && c ≤ 'f' then some (c.toNat - 87)
  else if 'A' ≤ c && c ≤ 'F' then some (c.toNat - 55)
  else none

/-- Body of a JSON string literal, after the opening quote. -/
def parseStringBody : Nat → List Char → Except Unit (String × List Char)
  | 0, _ => .error ()
  | _ + 1, [] => .error ()
  | fuel + 1, c :: cs =>
    let cont (ch : Char) (rest : List Char) : Except Unit (String × List Char) :=
      match parseStringBody fuel rest with
      | .ok (s, r) => .ok (String.mk (ch :: s.data), r)
      | .error _ => .error ()
    if c = '"' then .ok ("", cs)
    else if c = '\\' then
      match cs with
      | [] => .error ()
      | e :: cs2 =>
        if e = '"' then cont '"' cs2
        else if e = '\\' then cont '\\' cs2
        else if e = '/' then cont '/' cs2
        else if e = 'b' then cont (Char.ofNat 8) cs2
        else if e = 'f' then cont (Char.ofNat 12) cs2
        else if e = 'n' then cont '\n' cs2
        else if e = 'r' then cont '\r' cs2
        else if e = 't' then cont '\t' cs2
        else if e = 'u' then
          match cs2 with
          | h1 :: h2 :: h3 :: h4 :: cs3 =>
            match hexVal h1, hexVal h2, hexVal h3, hexVal h4 with
            | some a, some b, some c3, some d =>
              cont (Char.ofNat (((a * 16 + b) * 16 + c3) * 16 + d)) cs3
            | _, _, _, _ => .error ()
          | _ => .error ()
        else .error ()
    else cont c cs

/-- A JSON number literal (strict grammar: no leading zeros, `.`/`e` need digits). -/
def parseNumber (cs0 : List Char) : Except Unit (Rat × List Char) :=
  let sgn : Bool × List Char :=
    match cs0 with
    | '-' :: r => (true, r)
    | _ => (false, cs0)
  let ipr := takeDigits sgn.2
  if ipr.1 = [] then .error ()
  else if 1 < ipr.1.length ∧ ipr.1.head? = some '0' then .error ()
  else
    let frac : Except Unit (List Char × List Char) :=
      match ipr.2 with
      | '.' :: r =>
        let t := takeDigits r
        if t.1 = [] then .error () else .ok (t.1, t.2)
      | _ => .ok ([], ipr.2)
    match frac with
    | .error _ => .error ()
    | .ok (fds, cs3) =>
      let expPart : Except Unit (Bool × List Char × List Char) :=
        match cs3 with
        | 'e' :: r =>
          let sgr : Bool × List Char :=
            match r with
            | '-' :: r2 => (true, r2)
            | '+' :: r2 => (false, r2)
            | _ => (false, r)
          let t := takeDigits sgr.2
          if t.1 = [] then .error () else .ok (sgr.1, t.1, t.2)
        | 'E' :: r =>
          let sgr : Bool × List Char :=
            match r with
            | '-' :: r2 => (true, r2)
            | '+' :: r2 => (false, r2)
            | _ => (false, r)
          let t := takeDigits sgr.2
          if t.1 = [] then .error () else .ok (sgr.1, t.1, t.2)
        | _ => .ok (false, [], cs3)
      match expPart with
      | .error _ => .error ()
      | .ok (eneg, eds, cs4) =>
        let mant : Rat := (digitsToNat (ipr.1 ++ fds) : Nat)
        let q1 : Rat := mant / ((10 : Rat) ^ fds.length)
        let e : Nat := digitsToNat eds
        let q2 : Rat := if eneg then q1 / ((10 : Rat) ^ e) else q1 * ((10 : Rat) ^ e)
        .ok (if sgn.1 then -q2 else q2, cs4)

def expectLit : List Char → List Char → Option (List Char)
  | [], cs => some cs
  | l :: ls, c :: cs => if c = l then expectLit ls cs else none
  | _ :: _, [] => none

mutual

/-- One JSON value (leading whitespace allowed). -/
def parseVal : Nat → List Char → Except Unit (Json × List Char)
  | 0, _ => .error ()
  | fuel + 1, cs0 =>
    match skipWs cs0 with
    | [] => .error ()
    | c :: cs =>
      if c = 'n' then
        match expectLit ['u', 'l', 'l'] cs with
        | some r => .ok (.jnull, r)
        | none => .error ()
      else if c = 't' then
        match expectLit ['r', 'u', 'e'] cs with
        | some r => .ok (.jbool true, r)
        | none => .error ()
      else if c = 'f' then
        match expectLit ['a', 'l', 's', 'e'] cs with
        | some r => .ok (.jbool false, r)
        | none => .error ()
      else if c = '"' then
        match parseStringBody (cs.length + 1) cs with
        | .ok (s, r) => .ok (.jstr s, r)
        | .error _ => .error ()
      else if c = lbrace then
        match skipWs cs with
        | c2 :: r =>
          if c2 = rbrace then .ok (.jobj [], r)
          else
            match parseMembers fuel (c2 :: r) with
            | .ok (fs, r2) => .ok (.jobj fs, r2)
            | .error _ => .error ()
        | [] => .error ()
      else if c = lbrack then
        match skipWs cs with
        | c2 :: r =>
          if c2 = rbrack then .ok (.jarr [], r)
          else
            match parseElems fuel (c2 :: r) with
            | .ok (xs, r2) => .ok (.jarr xs, r2)
            | .error _ => .error ()
        | [] => .error ()
      else
        match parseNumber (c :: cs) with
        | .ok (q, r) => .ok (.jnum q, r)
        | .error _ => .error ()

/-- Members of a JSON object, after the opening brace (at least one member). -/
def parseMembers : Nat → List Char → Except Unit (List (String × Json) × List Char)
  | 0, _ => .error ()
  | fuel + 1, cs0 =>
    match skipWs cs0 with
    | '"' :: cs =>
      match parseStringBody (cs.length + 1) cs with
      | .error _ => .error ()
      | .ok (k, r1) =>
        match skipWs r1 with
        | ':' :: r2 =>
          match parseVal fuel r2 with
          | .error _ => .error ()
          | .ok (v, r3) =>
            match skipWs r3 with
            | ',' :: r4 =>
              match parseMembers fuel r4 with
              | .ok (fs, r5) => .ok ((k, v) :: fs, r5)
              | .error _ => .error ()
            | c4 :: r4 => if c4 = rbrace then .ok ([(k, v)], r4) else .error ()
            | [] => .error ()
        | _ => .error ()
    | _ => .error ()

/-- Elements of a JSON array, after the opening bracket (at least one element). -/
def parseElems : Nat → List Char → Except Unit (List Json × List Char)
  | 0, _ => .error ()
  | fuel + 1, cs0 =>
    match parseVal fuel cs0 with
    | .error _ => .error ()
    | .ok (v, r1) =>
      match skipWs r1 with
      | ',' :: r2 =>
        match parseElems fuel r2 with
        | .ok (xs, r3) => .ok (v :: xs, r3)
        | .error _ => .error ()
      | c2 :: r2 => if c2 = rbrack then .ok ([v], r2) else .error ()
      | [] => .error ()

end

/-- Model of `JSON.parse`: the whole string must be a single JSON value. -/
def jsonParse (s : String) : Except Unit Json :=
  match parseVal (2 * s.data.length + 2) s.data with
  | .ok (v, rest) => if skipWs rest = [] then .ok v else .error ()
  | .error _ => .error ()

/-! ## JavaScript runtime values as seen by the classifier -/

/-- A JavaScript value read off a parsed JSON document: either `undefined`
(absent property) or a JSON value. -/
inductive JSValue where
  | undefined : JSValue
  | val : Json → JSValue

/-- The JS `null` literal as a `JSValue`. -/
def jsNull : JSValue := .val .jnull

/-- JavaScript truthiness (`NaN` is not representable here). -/
def isTruthy : JSValue → Bool
  | .undefined => false
  | .val .jnull => false
  | .val (.jbool b) => b
  | .val (.jnum q) => decide (q ≠ 0)
  | .val (.jstr s) => decide (s ≠ "")
  | .val (.jarr _) => true
  | .val (.jobj _) => true

/-- JS property access on a parsed JSON value: throws (TypeError) on `null`,
yields `undefined` on non-objects and absent keys, last duplicate key wins. -/
def getField : Json → String → Except Unit JSValue
  | .jnull, _ => .error ()
  | .jobj fs, k =>
    .ok (match fs.reverse.find? (fun p => p.1 == k) with
      | some p => .val p.2
      | none => .undefined)
  | _, _ => .ok .undefined

/-! ## Data model (`client.ts` interfaces, `db/schema.ts` decision row) -/

/-- `BVADecisionSummary` from `client.ts`. -/
structure BVADecisionSummary where
  id : String
  citation_number : String
  date : String
  type : String
  docket_numbers : List String
  url : String
deriving DecidableEq, Repr

/-- A decision paragraph, `{section?, text, order}`. -/
structure Paragraph where
  sectionName : Option String
  text : String
  order : Nat
deriving DecidableEq, Repr

/-- `BVADecisionDetail` from `client.ts` (summary fields plus content). -/
structure BVADecisionDetail where
  id : String
  citation_number : String
  date : String
  type : String
  docket_numbers : List String
  url : String
  paragraphs : List Paragraph
  raw_text : String
  filename : String
  created_at : String
  updated_at : String
deriving DecidableEq, Repr

/-- A JS `Date` value: either constructed from a string (deterministic) or a
wall-clock reading (`new Date()`), identified by the clock value supplied by
the clock oracle. -/
inductive DateV where
  | ofStr : String → DateV
  | tick : Nat → DateV
deriving DecidableEq, Repr

/-! ## `parser.ts` -/

/-- Character-level prefix test (used to implement substring search). -/
def chPrefix : List Char → List Char → Bool
  | [], _ => true
  | _ :: _, [] => false
  | a :: as, b :: bs => a = b && chPrefix as bs

/-- Model of JavaScript `hay.includes(needle)`. -/
def strIncludes (hay needle : String) : Bool :=
  (List.range (hay.data.length + 1)).any (fun i => chPrefix needle.data (hay.data.drop i))

/-- Model of JavaScript `s.trim()`: strip leading and trailing whitespace. -/
def jsTrim (s : String) : String :=
  String.mk (((s.data.dropWhile isWsChar).reverse.dropWhile isWsChar).reverse)

/-- Model of JavaScript `s.toLowerCase()` (ASCII letters). -/
def jsToLower (s : String) : String := String.mk (s.data.map Char.toLower)

/-- `normalizeSectionName` from `parser.ts`: case-insensitive substring match
against a fixed vocabulary, first rule wins, unmatched labels pass through. -/
def normalizeSectionName (sectionName : String) : String :=
  let name := jsTrim (jsToLower sectionName)
  if strIncludes name "introduction" || strIncludes name "intro" then "introduction"
  else if strIncludes name "finding" || strIncludes name "fact" then "findings_of_fact"
  else if strIncludes name "analysis" || strIncludes name "discussion" then "analysis"
  else if strIncludes name "reason" && strIncludes name "base" then "reasons_and_bases"
  else if strIncludes name "conclusion" || strIncludes name "order" then "conclusion"
  else if strIncludes name "evidence" then "evidence"
  else if strIncludes name "procedural" then "procedural_history"
  else sectionName

/-- One step of the section-grouping loop of `parseBVADecision`: append
`text + "\n\n"` to the bucket keyed by the raw label (JS object keys keep
first-occurrence order; a fresh key is appended). -/
def addPara (acc : List (String × String)) (key txt : String) : List (String × String) :=
  if acc.any (fun kv => kv.1 == key) then
    acc.map (fun kv => if kv.1 == key then (kv.1, kv.2 ++ txt ++ "\n\n") else kv)
  else acc ++ [(key, txt ++ "\n\n")]

/-- The `sections` record built by `parseBVADecision`: paragraphs grouped by
their raw `section` label (`'content'` when absent), buckets trimmed. -/
def sectionsOf (paras : List Paragraph) : List (String × String) :=
  (paras.foldl (fun acc p => addPara acc (p.sectionName.getD "content") p.text) []).map
    (fun kv => (kv.1, jsTrim kv.2))

/-- `parseBVADecision`'s result (a `NewDecision` minus the outcome columns).
`uuid` is the value returned by `randomUUID()` and `now` the clock value read
by the `syncedAt: new Date()` call, both supplied by the caller's oracles. -/
structure ParsedDecision where
  id : String
  citationNumber : String
  bvaApiId : String
  decisionDate : DateV
  decisionType : String
  docketNumbers : List String
  sourceUrl : String
  filename : String
  rawText : String
  paragraphs : List Paragraph
  sections : List (String × String)
  extractedData : JSValue
  issues : JSValue
  boardMemberName : JSValue
  veteranName : JSValue
  syncedAt : DateV
  lastUpdated : DateV
  indexed : Bool
  embeddingGenerated : Bool

/-- `parseBVADecision` from `parser.ts`. -/
def parseBVADecision (apiDecision : BVADecisionDetail) (uuid : String) (now : Nat) :
    ParsedDecision where
  id := uuid
  citationNumber := apiDecision.citation_number
  bvaApiId := apiDecision.id
  decisionDate := .ofStr apiDecision.date
  decisionType := apiDecision.type
  docketNumbers := apiDecision.docket_numbers
  sourceUrl := apiDecision.url
  filename := apiDecision.filename
  rawText := apiDecision.raw_text
  paragraphs := apiDecision.paragraphs
  sections := sectionsOf apiDecision.paragraphs
  extractedData := jsNull
  issues := jsNull
  boardMemberName := jsNull
  veteranName := jsNull
  syncedAt := .tick now
  lastUpdated := .ofStr apiDecision.updated_at
  indexed := false
  embeddingGenerated := false

/-- `extractKeySections` from `parser.ts`: keep the priority sections, or all
sections when none of the priority keys is present. -/
def extractKeySections (sections : List (String × String)) : List (String × String) :=
  let prioritySections := ["findings_of_fact", "reasons_and_bases", "analysis", "conclusion"]
  let keySections := prioritySections.filterMap
    (fun k => (sections.find? (fun kv => kv.1 == k)).map (fun kv => (k, kv.2)))
  if keySections.length = 0 then sections else keySections

/-! ## `client.ts`: error mapping and pagination -/

/-- `BVAApiError(message, statusCode)` from `client.ts`. -/
structure BVAApiError where
  message : String
  statusCode : Nat
deriving DecidableEq, Repr

/-- `SearchResult` from `client.ts`. -/
structure SearchResult where
  offset : Nat
  limit : Nat
  has_more : Bool
  count : Nat
  decisions : List BVADecisionSummary
deriving DecidableEq, Repr

/-- What one `fetch` call did: the transport failed, or a response arrived
with a status, a status text and a body (`response.json()` may itself throw). -/
inductive FetchOutcome (α : Type) where
  | netError : String → FetchOutcome α
  | resp : Nat → String → Except String α → FetchOutcome α

/-- `response.ok` per the fetch spec: status in 200..299. -/
def respOk (status : Nat) : Bool := 200 ≤ status && status < 300

/-- `BVAApiClient.getDecision`: 404 maps to the distinguished not-found error,
other non-success statuses to a generic API error carrying the status, and
anything thrown outside `BVAApiError` (transport, body parse) to status 0. -/
def getDecision (citationNumber : String) (http : FetchOutcome BVADecisionDetail) :
    Except BVAApiError BVADecisionDetail :=
  match http with
  | .netError msg => .error ⟨"Network error: " ++ msg, 0⟩
  | .resp status statusText body =>
    if respOk status then
      match body with
      | .ok d => .ok d
      | .error m => .error ⟨"Network error: " ++ m, 0⟩
    else if status = 404 then .error ⟨"Decision not found: " ++ citationNumber, 404⟩
    else .error ⟨"API error: " ++ statusText, status⟩

/-- `BVAApiClient.searchDecisions`: like `getDecision` but with no 404 special
case. -/
def searchDecisions (http : FetchOutcome SearchResult) : Except BVAApiError SearchResult :=
  match http with
  | .netError msg => .error ⟨"Network error: " ++ msg, 0⟩
  | .resp status statusText body =>
    if respOk status then
      match body with
      | .ok r => .ok r
      | .error m => .error ⟨"Network error: " ++ m, 0⟩
    else .error ⟨"API error: " ++ statusText, status⟩

/-- Observable events of the `fetchAllDecisions` generator: a search request
at an offset, a yielded batch, the 500 ms rate-limit delay, or a thrown
iteration error. -/
inductive ClientEv where
  | request : Nat → ClientEv
  | batchEv : List BVADecisionSummary → ClientEv
  | delayEv : Nat → ClientEv
  | iterError : String → ClientEv
deriving DecidableEq, Repr

/-- `BVAApiClient.fetchAllDecisions`, as the trace of events it produces.
`search offset` stands for `searchDecisions {params, offset, limit: 100}`
(the limit is fixed at 100 in the source).  `fuel` bounds the number of loop
iterations; any sufficiently large value yields the full trace. -/
def fetchAllDecisions (search : Nat → Except String SearchResult) :
    Nat → Nat → Bool → List ClientEv
  | 0, _, _ => []
  | fuel + 1, offset, hasMore =>
    if hasMore then
      ClientEv.request offset ::
        match search offset with
        | .error m => [.iterError m]
        | .ok r =>
          (if 0 < r.decisions.length then [ClientEv.batchEv r.decisions] else []) ++
            (if r.has_more then [ClientEv.delayEv 500] else []) ++
            fetchAllDecisions search fuel (offset + 100) r.has_more
    else []

/-- A simulated upstream with `N` matches (items given by `f`): page at
`offset` holds the matches from `offset` on, at most 100, and reports
`has_more` exactly when matches remain beyond the page. -/
def simPage (f : Nat → BVADecisionSummary) (N offset : Nat) : SearchResult where
  offset := offset
  limit := 100
  has_more := offset + 100 < N
  count := N
  decisions := (List.range' offset (min 100 (N - offset))).map f

/-- The canonical pagination trace over the simulated upstream, starting at
`offset`. -/
def simTrace (f : Nat → BVADecisionSummary) (N offset : Nat) : List ClientEv :=
  if offset < N then
    ClientEv.request offset ::
      ClientEv.batchEv ((List.range' offset (min 100 (N - offset))).map f) ::
        (if offset + 100 < N then ClientEv.delayEv 500 :: simTrace f N (offset + 100) else [])
  else [ClientEv.request offset]
termination_by N - offset
decreasing_by omega

def isBatchEv : ClientEv → Bool
  | .batchEv _ => true
  | _ => false

def isDelayEv : ClientEv → Bool
  | .delayEv _ => true
  | _ => false

/-- The offsets of the search requests in a client trace. -/
def reqOffsets (tr : List ClientEv) : List Nat :=
  tr.filterMap (fun e => match e with | .request o => some o | _ => none)

/-! ## `sync.ts`: outcome classifier -/

/-- The classification prompt built by `BVASyncService.extractOutcome`
(literal braces and apostrophes written as escapes). -/
def buildPrompt (decision : BVADecisionDetail) : String :=
  let textExcerpt := decision.raw_text.take 4000
  "Analyze this BVA (Board of Veterans\x27 Appeals) decision and determine the outcome.\n\nDecision Citation: "
    ++ decision.citation_number
    ++ "\nDecision Date: "
    ++ decision.date
    ++ "\n\nDecision Text (excerpt):\n"
    ++ textExcerpt
    ++ "\n\nBased on the decision text, classify the outcome as ONE of the following:\n- \"Granted\" - The veteran\x27s appeal was granted (approved)\n- \"Denied\" - The veteran\x27s appeal was denied\n- \"Remanded\" - The case was sent back for additional development/evidence\n- \"Mixed\" - Some issues granted, some denied/remanded\n\nAlso provide a confidence score from 0.0 to 1.0.\n\nRespond ONLY with valid JSON in this exact format:\n\x7b\n  \"outcome\": \"Granted\" | \"Denied\" | \"Remanded\" | \"Mixed\",\n  \"confidence\": 0.95,\n  \"reasoning\": \"Brief explanation of why you classified it this way\"\n\x7d"

/-- The pair returned by `extractOutcome` (its declared TS type is
`{outcome: string, confidence: number}` but at runtime either member can be
any JS value read off the parsed response). -/
structure OutcomeRes where
  outcome : JSValue
  confidence : JSValue

/-- The degraded result: outcome "Unknown", confidence 0.0. -/
def unknownOutcome : OutcomeRes := ⟨.val (.jstr "Unknown"), .val (.jnum 0)⟩

/-- `BVASyncService.extractOutcome`.  `gen` is the oracle for
`flashClient.generate` keyed by the prompt: it throws (with a message) or
returns the raw response text.  Every throw inside the `try` — the generate
call, `JSON.parse`, or property access on a `null` result — degrades to
`unknownOutcome`; `parsed.confidence || 0.5` defaults falsy confidence. -/
def extractOutcome (gen : String → Except String String) (decision : BVADecisionDetail) :
    OutcomeRes :=
  match gen (buildPrompt decision) with
  | .error _ => unknownOutcome
  | .ok response =>
    match jsonParse response with
    | .error _ => unknownOutcome
    | .ok parsed =>
      match getField parsed "outcome" with
      | .error _ => unknownOutcome
      | .ok o =>
        match getField parsed "confidence" with
        | .error _ => unknownOutcome
        | .ok cnf => ⟨o, if isTruthy cnf then cnf else .val (.jnum (1 / 2))⟩

/-! ## `sync.ts`: the sync run -/

/-- A decisions-table row: `parseBVADecision`'s columns plus the outcome
columns added at the insert site. -/
structure StoredDecision extends ParsedDecision where
  outcome : JSValue
  outcomeConfidence : JSValue

/-- An entry of `result.errors`. -/
structure ErrEntry where
  decisionId : String
  citationNumber : String
  error : String
deriving DecidableEq, Repr

/-- `SyncResult` (the run summary). -/
structure SyncResult where
  total : Nat
  synced : Nat
  skipped : Nat
  errors : List ErrEntry
  startTime : DateV
  endTime : Option DateV
  duration : Option Int

/-- `SyncOptions` (all fields optional in TS). -/
structure SyncOptions where
  query : Option String := none
  startYear : Option Nat := none
  endYear : Option Nat := none
  decisionType : Option String := none
  maxDecisions : Option Nat := none
  skipExisting : Option Bool := none
  extractOutcomes : Option Bool := none

/-- `options.maxDecisions || 100`: `0` and `undefined` are falsy. -/
def effectiveMax (m : Option Nat) : Nat :=
  match m with
  | some n => if n = 0 then 100 else n
  | none => 100

/-- JS truthiness of an optional boolean (`if (options.skipExisting)`). -/
def truthyOpt : Option Bool → Bool
  | some b => b
  | none => false

/-- `options.extractOutcomes !== false`. -/
def extractOn : Option Bool → Bool
  | some false => false
  | _ => true

/-- A `sync_metadata` row. -/
structure SyncMetadataRec where
  id : String
  lastSyncDate : DateV
  totalDecisions : Nat
  lastSyncStatus : String
  lastSyncError : Option String
deriving DecidableEq, Repr

/-- The oracles a sync run interacts with: the `randomUUID` supply, the wall
clock, `bvaApiClient.getDecision` per citation (fixed upstream content), the
generative call per prompt, and per-citation upsert failure. -/
structure SyncEnv where
  uuid : Nat → String
  clock : Nat → Nat
  fetch : String → Except String BVADecisionDetail
  gen : String → Except String String
  dbFail : String → Option String

/-- Observable per-item effects of a sync run. -/
inductive SEv where
  | dbLookup : String → SEv
  | detailFetch : String → SEv
  | llmCall : String → SEv
  | dbWrite : String → SEv
deriving DecidableEq, Repr

/-- The evolving state of one `syncDecisions` run: the decisions store, the
`result` counters, the `decisionsProcessed` ceiling counter, the oracle
cursors for `randomUUID` (`u`) and `new Date()` (`c`), and the effect trace. -/
structure SyncState where
  store : List StoredDecision
  total : Nat
  synced : Nat
  skipped : Nat
  errors : List ErrEntry
  processed : Nat
  u : Nat
  c : Nat
  trace : List SEv

/-- `db.query.decisions.findFirst({where: eq(citationNumber, cit)})`. -/
def lookupCit (store : List StoredDecision) (cit : String) : Option StoredDecision :=
  store.find? (fun r => r.citationNumber == cit)

def hasCit (store : List StoredDecision) (cit : String) : Bool :=
  store.any (fun r => r.citationNumber == cit)

/-- `db.insert(decisions).values(ins).onConflictDoUpdate({target:
citationNumber, set: upd})`: a conflicting row is updated in place, otherwise
the row is appended. -/
def upsertDecision (store : List StoredDecision) (ins upd : StoredDecision) :
    List StoredDecision :=
  if hasCit store ins.citationNumber then
    store.map (fun r => if r.citationNumber == ins.citationNumber then upd else r)
  else store ++ [ins]

/-- The full row an item inserts: parsed columns (with the `u`-th uuid and the
`c`-th clock reading) plus the outcome columns. -/
def itemRow (env : SyncEnv) (ext : Bool) (d : BVADecisionDetail) (u c : Nat) :
    StoredDecision :=
  let oc : JSValue × JSValue :=
    if ext then
      let r := extractOutcome env.gen d
      (r.outcome, r.confidence)
    else (jsNull, jsNull)
  { toParsedDecision := parseBVADecision d (env.uuid u) (env.clock c)
    outcome := oc.1
    outcomeConfidence := oc.2 }

/-- Stages after a successful detail fetch: parse, classify (when enabled),
upsert; a storage throw becomes an item error.  The conflict-`set` object's
`lastUpdated: new Date()` reads the clock at index `c+1` (the `values`/`set`
objects are built before the write is attempted). -/
def stepParsed (env : SyncEnv) (ext : Bool) (s : SyncState) (x : BVADecisionSummary)
    (d : BVADecisionDetail) : SyncState :=
  let row := itemRow env ext d s.u s.c
  let s1 : SyncState :=
    { s with
      u := s.u + 1
      c := s.c + 2
      trace := s.trace ++ (if ext then [SEv.llmCall x.citation_number] else []) ++
        [SEv.dbWrite x.citation_number] }
  match env.dbFail x.citation_number with
  | some msg => { s1 with errors := s1.errors ++ [⟨x.id, x.citation_number, msg⟩] }
  | none =>
    { s1 with
      store := upsertDecision s.store row { row with lastUpdated := .tick (env.clock (s.c + 1)) }
      synced := s1.synced + 1
      processed := s1.processed + 1 }

/-- The detail fetch for one item; a throw becomes an item error. -/
def stepFetch (env : SyncEnv) (ext : Bool) (s : SyncState) (x : BVADecisionSummary) :
    SyncState :=
  let s1 : SyncState := { s with trace := s.trace ++ [SEv.detailFetch x.citation_number] }
  match env.fetch x.citation_number with
  | .error msg => { s1 with errors := s1.errors ++ [⟨x.id, x.citation_number, msg⟩] }
  | .ok d => stepParsed env ext s1 x d

/-- One item of the inner loop of `syncDecisions` (after the ceiling check):
count it in `total`, optionally skip it when it already exists, otherwise
fetch / parse / classify / upsert with every throw caught at item
granularity. -/
def stepItem (env : SyncEnv) (skip ext : Bool) (s : SyncState) (x : BVADecisionSummary) :
    SyncState :=
  if skip then
    if (lookupCit s.store x.citation_number).isSome then
      { s with
        total := s.total + 1
        skipped := s.skipped + 1
        trace := s.trace ++ [SEv.dbLookup x.citation_number] }
    else
      stepFetch env ext
        { s with total := s.total + 1, trace := s.trace ++ [SEv.dbLookup x.citation_number] } x
  else stepFetch env ext { s with total := s.total + 1 } x

/-- The inner `for (const summary of batch)` loop: the `maxDecisions` ceiling
is checked before each item. -/
def runBatch (env : SyncEnv) (skip ext : Bool) (maxd : Nat) :
    SyncState → List BVADecisionSummary → SyncState
  | s, [] => s
  | s, x :: xs =>
    if maxd ≤ s.processed then s
    else runBatch env skip ext maxd (stepItem env skip ext s x) xs

/-- The outer `for await (const batch of ...)` loop; the second component
counts the batches actually consumed from the generator (each one stands for
one search request). -/
def runBatches (env : SyncEnv) (skip ext : Bool) (maxd : Nat) :
    SyncState → List (List BVADecisionSummary) → SyncState × Nat
  | s, [] => (s, 0)
  | s, b :: bs =>
    let s' := runBatch env skip ext maxd s b
    if maxd ≤ s'.processed then (s', 1)
    else
      let r := runBatches env skip ext maxd s' bs
      (r.1, r.2 + 1)

/-- `BVASyncService.updateSyncMetadata`: overwrite the fixed-key (`'latest'`)
singleton row.  `now` is the clock value read by the `new Date()` fallback
(`result.endTime` is still unset at the call site). -/
def updateSyncMetadata (result : SyncResult) (now : Nat) (meta : List SyncMetadataRec) :
    List SyncMetadataRec :=
  let status := if 0 < result.errors.length then "completed_with_errors" else "completed"
  let errorSummary : Option String :=
    if 0 < result.errors.length then
      some (toString result.errors.length ++ " errors: " ++
        String.intercalate ", " ((result.errors.take 3).map (fun e => e.citationNumber)))
    else none
  let row : SyncMetadataRec :=
    { id := "latest"
      lastSyncDate := match result.endTime with | some d => d | none => .tick now
      totalDecisions := result.synced
      lastSyncStatus := status
      lastSyncError := errorSummary }
  if meta.any (fun r => r.id == "latest") then
    meta.map (fun r => if r.id == "latest" then row else r)
  else meta ++ [row]

/-- Everything a `syncDecisions` call produces or mutates. -/
structure SyncRunOut where
  result : SyncResult
  store : List StoredDecision
  meta : List SyncMetadataRec
  batchesConsumed : Nat
  trace : List SEv
  uFinal : Nat
  cFinal : Nat

/-- `BVASyncService.syncDecisions` over a fixed upstream batch stream
(`batches` is what `fetchAllDecisions` yields for the run's query).  `u0`/`c0`
are the oracle cursors at call time; the metadata write happens before
`result.endTime` is set, exactly as in the source. -/
def syncDecisions (env : SyncEnv) (options : SyncOptions) (store0 : List StoredDecision)
    (meta0 : List SyncMetadataRec) (batches : List (List BVADecisionSummary))
    (u0 c0 : Nat) : SyncRunOut :=
  let t1 := env.clock c0
  let maxd := effectiveMax options.maxDecisions
  let skip := truthyOpt options.skipExisting
  let ext := extractOn options.extractOutcomes
  let s0 : SyncState :=
    { store := store0, total := 0, synced := 0, skipped := 0, errors := [],
      processed := 0, u := u0, c := c0 + 1, trace := [] }
  let r := runBatches env skip ext maxd s0 batches
  let s := r.1
  let preResult : SyncResult :=
    { total := s.total, synced := s.synced, skipped := s.skipped, errors := s.errors,
      startTime := .tick t1, endTime := none, duration := none }
  let meta1 := updateSyncMetadata preResult (env.clock s.c) meta0
  let t2 := env.clock (s.c + 1)
  { result := { preResult with endTime := some (.tick t2), duration := some ((t2 : Int) - t1) }
    store := s.store
    meta := meta1
    batchesConsumed := r.2
    trace := s.trace
    uFinal := s.u
    cFinal := s.c + 2 }

/-! ## Concrete fixtures -/

/-- A minimal decision detail for a given citation number. -/
def mkDetail (cit : String) : BVADecisionDetail where
  id := cit ++ "-api"
  citation_number := cit
  date := "2023-01-15"
  type := "AMA"
  docket_numbers := []
  url := "u"
  paragraphs := []
  raw_text := ""
  filename := "f"
  created_at := "t"
  updated_at := "t"

/-- A deterministic oracle environment: distinct uuids, a strictly increasing
clock, every citation fetchable, the generative call down, no storage
failures. -/
def env0 : SyncEnv where
  uuid := fun n => "uuid-" ++ toString n
  clock := fun n => n
  fetch := fun cit => .ok (mkDetail cit)
  gen := fun _ => .error "llm down"
  dbFail := fun _ => none

def sumA : BVADecisionSummary := ⟨"a-id", "23-0001", "2023-01-15", "AMA", [], "u"⟩

def sumB : BVADecisionSummary := ⟨"b-id", "23-0002", "2023-01-16", "AMA", [], "u"⟩

def sumC : BVADecisionSummary := ⟨"c-id", "23-0003", "2023-01-17", "AMA", [], "u"⟩

/-- Like `env0` but the detail fetch for citation `23-0001` throws. -/
def env5 : SyncEnv :=
  { env0 with fetch := fun cit => if cit = "23-0001" then .error "boom" else .ok (mkDetail cit) }

def opts5 : SyncOptions := { maxDecisions := some 1, extractOutcomes := some false }

/-! ## C10: a falsy `maxDecisions` falls back to the default of 100 -/

/-- C10: `syncDecisions({maxDecisions: 0})` behaves identically to
`syncDecisions({maxDecisions: 100})`: `options.maxDecisions || 100` treats the
falsy `0` (like `undefined`) as absent, so the run uses the default ceiling of
100 and does not process zero items. -/
theorem c10_theorem (env : SyncEnv) (q : Option String) (sy ey : Option Nat)
    (dt : Option String) (se eo : Option Bool) (store0 : List StoredDecision)
    (meta0 : List SyncMetadataRec) (batches : List (List BVADecisionSummary)) (u0 c0 : Nat) :
    syncDecisions env ⟨q, sy, ey, dt, some 0, se, eo⟩ store0 meta0 batches u0 c0 =
      syncDecisions env ⟨q, sy, ey, dt, some 100, se, eo⟩ store0 meta0 batches u0 c0 ∧
    syncDecisions env ⟨q, sy, ey, dt, none, se, eo⟩ store0 meta0 batches u0 c0 =
      syncDecisions env ⟨q, sy, ey, dt, some 100, se, eo⟩ store0 meta0 batches u0 c0 :=
  ⟨rfl, rfl⟩

/-! ## C8: error-condition mapping in the fetch client -/

/-- C8: transport failures map to a `BVAApiError` with sentinel status 0 (for
both `getDecision` and `searchDecisions`); `getDecision` maps a 404 response
to the distinguished not-found error (status 404, not-found message) and any
other non-success response to a generic API error carrying the upstream
status; `searchDecisions` maps every non-success response to the generic API
error carrying the upstream status. -/
theorem c8_theorem (cit msg statusText : String) (status : Nat)
    (bodyD : Except String BVADecisionDetail) (bodyS : Except String SearchResult) :
    getDecision cit (.netError msg) = .error ⟨"Network error: " ++ msg, 0⟩ ∧
    searchDecisions (.netError msg) = .error ⟨"Network error: " ++ msg, 0⟩ ∧
    getDecision cit (.resp 404 statusText bodyD) =
      .error ⟨"Decision not found: " ++ cit, 404⟩ ∧
    (respOk status = false → status ≠ 404 →
      getDecision cit (.resp status statusText bodyD) =
        .error ⟨"API error: " ++ statusText, status⟩) ∧
    (respOk status = false →
      searchDecisions (.resp status statusText bodyS) =
        .error ⟨"API error: " ++ statusText, status⟩) := by
  refine ⟨rfl, rfl, rfl, fun h h4 => ?_, fun h => ?_⟩
  · simp [getDecision, h, h4]
  · simp [searchDecisions, h]

/-- Witness for C8 at a concrete non-success status. -/
theorem c8_witness :
    respOk 500 = false ∧ (500 : Nat) ≠ 404 ∧
    getDecision "23-0001" (.resp 500 "Internal Server Error" (.error "x")) =
      .error ⟨"API error: Internal Server Error", 500⟩ :=
  ⟨rfl, by decide,
    ( c8_theorem "23-0001" "m" "Internal Server Error" 500 (.error "x") (.error "x")).2.2.2.1
      rfl (by decide)⟩

/-! ## C7: skip-existing -/

/-- C7: with `skipExisting` on, an item whose citation number is already
stored is detected by the lookup performed before any detail fetch; the step
only increments `total` and `skipped` and appends the lookup event — no
detail fetch, no classification call, no store write, and the store, counters
and error list are otherwise untouched. -/
theorem c7_theorem (env : SyncEnv) (ext : Bool) (s : SyncState) (x : BVADecisionSummary)
    (h : (lookupCit s.store x.citation_number).isSome = true) :
    stepItem env true ext s x =
      { s with
        total := s.total + 1
        skipped := s.skipped + 1
        trace := s.trace ++ [SEv.dbLookup x.citation_number] } := by
  simp [stepItem, h]

/-- Witness for C7: a store already holding citation `23-0001`. -/
def storeW : List StoredDecision := [itemRow env0 false (mkDetail "23-0001") 0 0]

def stateW : SyncState :=
  { store := storeW, total := 3, synced := 2, skipped := 0, errors := [], processed := 2,
    u := 1, c := 4, trace := [] }

theorem c7_witness :
    (lookupCit stateW.store sumA.citation_number).isSome = true ∧
    stepItem env0 true false stateW sumA =
      { stateW with
        total := stateW.total + 1
        skipped := stateW.skipped + 1
        trace := stateW.trace ++ [SEv.dbLookup sumA.citation_number] } :=
  ⟨rfl, c7_theorem env0 false stateW sumA rfl⟩

/-! ## C3: section grouping does not apply normalization -/

def c3detail : BVADecisionDetail :=
  { mkDetail "23-0009" with
    paragraphs :=
      [⟨some "Findings of Fact", "A", 0⟩, ⟨some "findings and facts", "B", 1⟩,
        ⟨some "Analysis", "C", 2⟩] }

/-- C3: `parseBVADecision` groups paragraphs by their raw section label, and
`normalizeSectionName` is never applied during grouping: the labels
"Findings of Fact" and "findings and facts" both normalize to
`findings_of_fact`, yet the produced section map keeps them as two separate
raw-label buckets and contains no `findings_of_fact` key at all.  (Within a
bucket, texts are concatenated in paragraph order with a blank-line separator
and trimmed, and a missing label falls into the `content` bucket.) -/
theorem c3_theorem :
    (parseBVADecision c3detail "u0" 0).sections =
      [("Findings of Fact", "A"), ("findings and facts", "B"), ("Analysis", "C")] ∧
    normalizeSectionName "Findings of Fact" = "findings_of_fact" ∧
    normalizeSectionName "findings and facts" = "findings_of_fact" ∧
    ((parseBVADecision c3detail "u0" 0).sections.map Prod.fst).count "findings_of_fact" = 0 ∧
    (parseBVADecision { mkDetail "23-0010" with
        paragraphs := [⟨some "Order", "X", 0⟩, ⟨none, "Y", 1⟩, ⟨some "Order", "Z", 2⟩] }
      "u0" 0).sections = [("Order", "X\n\nZ"), ("content", "Y")] := by
  refine ⟨by decide, by decide, by decide, by decide, by decide⟩

/-! ## C2: classifier degradation -/

def dA : BVADecisionDetail := mkDetail "23-0001"

/-- Counterexample to C2 as stated: for the response `"{}"` — valid JSON that
is *not* an object with a valid outcome field — the claim demands
outcome "Unknown" / confidence 0.0, but `extractOutcome` returns the
undefined `parsed.outcome` together with the defaulted confidence 0.5: the
degradation path is taken only when something *throws*, not when the parsed
shape is merely wrong. -/
theorem c2_counterexample :
    extractOutcome (fun _ => .ok "\x7b\x7d") dA = ⟨.undefined, .val (.jnum (1 / 2))⟩ ∧
    extractOutcome (fun _ => .ok "\x7b\x7d") dA ≠ unknownOutcome := by
  refine ⟨rfl, fun h => ?_⟩
  have h2 : JSValue.undefined = JSValue.val (.jstr "Unknown") :=
    congrArg OutcomeRes.outcome ((show extractOutcome (fun _ => .ok "\x7b\x7d") dA =
      ⟨.undefined, .val (.jnum (1 / 2))⟩ from rfl).symm.trans h)
  exact JSValue.noConfusion h2

/-- C2 (amended): if the generative call throws, or its response is not
parseable JSON text (`JSON.parse` throws), `extractOutcome` returns outcome
"Unknown" with confidence 0.0 and propagates nothing; and whatever the
generative oracle does, a fetched item with a working store write is still
upserted and counted as synced — never recorded as an error. -/
theorem c2_theorem (env : SyncEnv) (d : BVADecisionDetail)
    (h : (∃ m, env.gen (buildPrompt d) = .error m) ∨
      (∃ r, env.gen (buildPrompt d) = .ok r ∧ jsonParse r = .error ())) :
    extractOutcome env.gen d = unknownOutcome ∧
    ∀ (skip : Bool) (s : SyncState) (x : BVADecisionSummary),
      env.fetch x.citation_number = .ok d →
      env.dbFail x.citation_number = none →
      (skip = true → (lookupCit s.store x.citation_number).isSome = false) →
      (stepItem env skip true s x).synced = s.synced + 1 ∧
      (stepItem env skip true s x).errors = s.errors ∧
      ∃ row : StoredDecision,
        (stepItem env skip true s x).store =
          upsertDecision s.store row { row with lastUpdated := .tick (env.clock (s.c + 1)) } ∧
        row.outcome = JSValue.val (.jstr "Unknown") ∧
        row.outcomeConfidence = JSValue.val (.jnum 0) := by
  have hu : extractOutcome env.gen d = unknownOutcome := by
    rcases h with ⟨m, hm⟩ | ⟨r, hr, hp⟩
    · simp [extractOutcome, hm]
    · simp [extractOutcome, hr, hp]
  refine ⟨hu, fun skip s x hf hd hl => ?_⟩
  have hrow : (itemRow env true d s.u s.c).outcome = JSValue.val (.jstr "Unknown") ∧
      (itemRow env true d s.u s.c).outcomeConfidence = JSValue.val (.jnum 0) := by
    simp [itemRow, hu, unknownOutcome]
  cases skip with
  | false =>
    refine ⟨?_, ?_, itemRow env true d s.u s.c, ?_, hrow.1, hrow.2⟩ <;>
      simp [stepItem, stepFetch, stepParsed, hf, hd]
  | true =>
    have hl' := hl rfl
    refine ⟨?_, ?_, itemRow env true d s.u s.c, ?_, hrow.1, hrow.2⟩ <;>
      simp [stepItem, stepFetch, stepParsed, hf, hd, hl']

/-- Oracle environment whose generative call returns non-JSON text. -/
def envC2 : SyncEnv := { env0 with gen := fun _ => .ok "oops" }

/-- Witness for C2 at a concrete non-JSON response. -/
theorem c2_witness :
    (envC2.gen (buildPrompt dA) = .ok "oops" ∧ jsonParse "oops" = .error ()) ∧
    extractOutcome envC2.gen dA = unknownOutcome :=
  ⟨⟨rfl, rfl⟩, ( c2_theorem envC2 dA (Or.inr ⟨"oops", rfl, rfl⟩)).1⟩

/-! ## C4: partial-failure isolation -/

/-- Whether (and with what message) this item's processing throws: `none`
when the item is skipped or every stage succeeds; otherwise the detail-fetch
or upsert error message. -/
def itemFailMsg (env : SyncEnv) (skip : Bool) (store : List StoredDecision)
    (x : BVADecisionSummary) : Option String :=
  if skip && (lookupCit store x.citation_number).isSome then none
  else
    match env.fetch x.citation_number with
    | .error m => some m
    | .ok _ => env.dbFail x.citation_number

/-- C4: when a per-item stage throws, exactly one
`{decisionId, citationNumber, message}` entry is appended to the run's error
list, `total` still counts the item, nothing else (store, synced, skipped,
ceiling counter) changes, no exception escapes, and the run continues with
the remaining items — the failed item is not retried within the run. -/
theorem c4_theorem (env : SyncEnv) (skip ext : Bool) (maxd : Nat) (s : SyncState)
    (x : BVADecisionSummary) (xs : List BVADecisionSummary) (msg : String)
    (hm : s.processed < maxd)
    (hf : itemFailMsg env skip s.store x = some msg) :
    (stepItem env skip ext s x).errors = s.errors ++ [⟨x.id, x.citation_number, msg⟩] ∧
    (stepItem env skip ext s x).total = s.total + 1 ∧
    (stepItem env skip ext s x).store = s.store ∧
    (stepItem env skip ext s x).synced = s.synced ∧
    (stepItem env skip ext s x).skipped = s.skipped ∧
    (stepItem env skip ext s x).processed = s.processed ∧
    runBatch env skip ext maxd s (x :: xs) =
      runBatch env skip ext maxd (stepItem env skip ext s x) xs := by
  have hb : (runBatch env skip ext maxd s (x :: xs) =
      runBatch env skip ext maxd (stepItem env skip ext s x) xs) := by
    simp [runBatch, Nat.not_le.mpr hm]
  cases hskip : skip with
  | false =>
    subst hskip
    simp only [itemFailMsg, Bool.false_and, Bool.false_eq_true, if_false] at hf
    cases hfe : env.fetch x.citation_number with
    | error m =>
      rw [hfe] at hf
      obtain rfl : m = msg := by simpa using hf
      refine ⟨?_, ?_, ?_, ?_, ?_, ?_, hb⟩ <;> simp [stepItem, stepFetch, hfe]
    | ok d =>
      rw [hfe] at hf
      dsimp only at hf
      refine ⟨?_, ?_, ?_, ?_, ?_, ?_, hb⟩ <;>
        simp [stepItem, stepFetch, stepParsed, hfe, hf]
  | true =>
    subst hskip
    have hl : (lookupCit s.store x.citation_number).isSome = false := by
      cases h' : (lookupCit s.store x.citation_number).isSome
      · rfl
      · simp only [itemFailMsg, h', Bool.and_true, if_true] at hf
        cases hf
    simp only [itemFailMsg, hl, Bool.and_false, Bool.false_eq_true, if_false] at hf
    cases hfe : env.fetch x.citation_number with
    | error m =>
      rw [hfe] at hf
      obtain rfl : m = msg := by simpa using hf
      refine ⟨?_, ?_, ?_, ?_, ?_, ?_, hb⟩ <;> simp [stepItem, stepFetch, hfe, hl]
    | ok d =>
      rw [hfe] at hf
      dsimp only at hf
      refine ⟨?_, ?_, ?_, ?_, ?_, ?_, hb⟩ <;>
        simp [stepItem, stepFetch, stepParsed, hfe, hf, hl]

def stateZ : SyncState :=
  { store := [], total := 0, synced := 0, skipped := 0, errors := [], processed := 0,
    u := 0, c := 1, trace := [] }

/-- Witness for C4: the detail fetch for `23-0001` throws `"boom"`. -/
theorem c4_witness :
    stateZ.processed < 1 ∧ itemFailMsg env5 false stateZ.store sumA = some "boom" ∧
    (stepItem env5 false false stateZ sumA).errors =
      stateZ.errors ++ [⟨sumA.id, sumA.citation_number, "boom"⟩] ∧
    runBatch env5 false false 1 stateZ (sumA :: [sumB]) =
      runBatch env5 false false 1 (stepItem env5 false false stateZ sumA) [sumB] :=
  ⟨by decide, rfl,
    ( c4_theorem env5 false false 1 stateZ sumA [sumB] "boom" (by decide) rfl).1,
    ( c4_theorem env5 false false 1 stateZ sumA [sumB] "boom" (by decide) rfl).2.2.2.2.2.2⟩

/-! ## List helpers for keyed overwrite -/

theorem find?_overwrite {α : Type} (p : α → Bool) (row : α) (l : List α)
    (hrow : p row = true) (h : l.any p = true) :
    (l.map (fun r => if p r then row else r)).find? p = some row := by
  induction l with
  | nil => simp at h
  | cons a t ih =>
    by_cases ha : p a = true
    · simp [ha, List.find?_cons_of_pos, hrow]
    · have h' : t.any p = true := by
        rcases (List.any_eq_true).1 h with ⟨x, hx, hpx⟩
        rcases List.mem_cons.1 hx with hx | hx
        · exact absurd (hx ▸ hpx) ha
        · exact (List.any_eq_true).2 ⟨x, hx, hpx⟩
      simp [ha, List.find?_cons_of_neg, ih h']

theorem find?_append_single {α : Type} (p : α → Bool) (row : α) (l : List α)
    (hrow : p row = true) (h : l.any p = false) :
    (l ++ [row]).find? p = some row := by
  have hn : l.find? p = none := by
    rw [List.find?_eq_none]
    intro x hx
    simpa using (List.any_eq_false.1 h) x hx
  rw [List.find?_append, hn]
  simp [List.find?_cons_of_pos, hrow]

theorem map_overwrite_id {α β : Type} (f : α → β) (p : α → Bool) (row : α) (l : List α)
    (hc : ∀ r, p r = true → f r = f row) :
    (l.map (fun r => if p r then row else r)).map f = l.map f := by
  rw [List.map_map]
  apply List.map_congr_left
  intro a _
  by_cases ha : p a = true
  · simp [ha, (hc a ha).symm]
  · simp [ha]

theorem countP_overwrite {α : Type} (p : α → Bool) (row : α) (l : List α)
    (hrow : p row = true) :
    (l.map (fun r => if p r then row else r)).countP p = l.countP p := by
  rw [List.countP_map]
  apply List.countP_congr
  intro a _
  by_cases ha : p a = true
  · simp [ha, hrow]
  · simp [ha]

/-! ## C9: the singleton sync-status record -/

/-- C9: after a run that completes its iteration, the fixed-key `'latest'`
metadata row is overwritten in place (appended only when no such row exists;
the id list of the table is unchanged when it does), holds the clock reading
taken at run finalization and the run's synced count, its status is
`completed_with_errors` exactly when the error list is non-empty
(`completed` otherwise), its error summary is built from the citation numbers
of at most the first 3 errors (and is `null` when there are no errors), and
exactly one `'latest'` row remains. -/
theorem c9_theorem (env : SyncEnv) (options : SyncOptions) (store0 : List StoredDecision)
    (meta0 : List SyncMetadataRec) (batches : List (List BVADecisionSummary)) (u0 c0 : Nat)
    (out : SyncRunOut)
    (hm : meta0.countP (fun r => r.id == "latest") ≤ 1)
    (hout : syncDecisions env options store0 meta0 batches u0 c0 = out) :
    out.meta.find? (fun r => r.id == "latest") =
      some { id := "latest"
             lastSyncDate := DateV.tick (env.clock (out.cFinal - 2))
             totalDecisions := out.result.synced
             lastSyncStatus :=
               if 0 < out.result.errors.length then "completed_with_errors" else "completed"
             lastSyncError :=
               if 0 < out.result.errors.length then
                 some (toString out.result.errors.length ++ " errors: " ++
                   String.intercalate ", "
                     ((out.result.errors.take 3).map (fun e => e.citationNumber)))
               else none } ∧
    out.meta.map (fun r => r.id) =
      (if meta0.any (fun r => r.id == "latest") then meta0.map (fun r => r.id)
       else meta0.map (fun r => r.id) ++ ["latest"]) ∧
    out.meta.countP (fun r => r.id == "latest") = 1 ∧
    ((out.meta.find? (fun r => r.id == "latest")).map (fun r => r.lastSyncStatus) =
        some "completed_with_errors" ↔ out.result.errors ≠ []) := by
  subst hout
  simp only [syncDecisions, updateSyncMetadata, Nat.add_sub_cancel]
  set s := (runBatches env (truthyOpt options.skipExisting) (extractOn options.extractOutcomes)
    (effectiveMax options.maxDecisions)
    { store := store0, total := 0, synced := 0, skipped := 0, errors := [],
      processed := 0, u := u0, c := c0 + 1, trace := [] } batches).1 with hs
  have hfind :
      ((if meta0.any (fun r => r.id == "latest") then
          meta0.map (fun r =>
            if r.id == "latest" then
              { id := "latest", lastSyncDate := DateV.tick (env.clock s.c),
                totalDecisions := s.synced,
                lastSyncStatus :=
                  if 0 < s.errors.length then "completed_with_errors" else "completed",
                lastSyncError :=
                  if 0 < s.errors.length then
                    some (toString s.errors.length ++ " errors: " ++
                      String.intercalate ", "
                        ((s.errors.take 3).map (fun e => e.citationNumber)))
                  else none }
            else r)
        else meta0 ++
          [{ id := "latest", lastSyncDate := DateV.tick (env.clock s.c),
             totalDecisions := s.synced,
             lastSyncStatus :=
               if 0 < s.errors.length then "completed_with_errors" else "completed",
             lastSyncError :=
               if 0 < s.errors.length then
                 some (toString s.errors.length ++ " errors: " ++
                   String.intercalate ", "
                     ((s.errors.take 3).map (fun e => e.citationNumber)))
               else none }]).find? (fun r => r.id == "latest")) =
        some { id := "latest", lastSyncDate := DateV.tick (env.clock s.c),
               totalDecisions := s.synced,
               lastSyncStatus :=
                 if 0 < s.errors.length then "completed_with_errors" else "completed",
               lastSyncError :=
                 if 0 < s.errors.length then
                   some (toString s.errors.length ++ " errors: " ++
                     String.intercalate ", "
                       ((s.errors.take 3).map (fun e => e.citationNumber)))
                 else none } := by
    by_cases hany : meta0.any (fun r => r.id == "latest") = true
    · rw [if_pos hany]
      exact find?_overwrite _ _ _ (by simp) hany
    · rw [if_neg hany]
      have hany' : meta0.any (fun r => r.id == "latest") = false := by
        simp only [Bool.not_eq_true] at hany
        exact hany
      exact find?_append_single _ _ _ (by simp) hany'
  refine ⟨?_, ?_, ?_, ?_⟩
  · simpa using hfind
  · by_cases hany : meta0.any (fun r => r.id == "latest") = true
    · rw [if_pos hany, if_pos hany]
      exact map_overwrite_id _ _ _ _ (fun r hr => by simpa using hr)
    · rw [if_neg hany, if_neg hany]
      simp
  · by_cases hany : meta0.any (fun r => r.id == "latest") = true
    · rw [if_pos hany]
      rw [countP_overwrite _ _ _ (by simp)]
      rcases (List.any_eq_true).1 hany with ⟨x, hx, hpx⟩
      have hpos : 0 < meta0.countP (fun r => r.id == "latest") :=
        List.countP_pos_iff.2 ⟨x, hx, hpx⟩
      omega
    · rw [if_neg hany]
      rw [List.countP_append]
      have hany' : meta0.any (fun r => r.id == "latest") = false := by
        simp only [Bool.not_eq_true] at hany
        exact hany
      have h0 : meta0.countP (fun r => r.id == "latest") = 0 := by
        rw [List.countP_eq_zero]
        intro a ha
        simpa using (List.any_eq_false.1 hany') a ha
      simp [h0, List.countP_cons]
  · rw [hfind]
    cases herr : s.errors with
    | nil => simp
    | cons e es =>
      constructor
      · intro _
        simp
      · intro _
        simp

/-- Witness for C9: a concrete run containing one error, against an empty
metadata table. -/
theorem c9_witness :
    ([] : List SyncMetadataRec).countP (fun r => r.id == "latest") ≤ 1 ∧
    (syncDecisions env5 opts5 [] [] [[sumA, sumB, sumC]] 0 0).meta.find?
        (fun r => r.id == "latest") =
      some { id := "latest", lastSyncDate := DateV.tick 3, totalDecisions := 1,
             lastSyncStatus := "completed_with_errors",
             lastSyncError := some "1 errors: 23-0001" } :=
  ⟨by decide,
    ( c9_theorem env5 opts5 [] [] [[sumA, sumB, sumC]] 0 0 _ (by decide) rfl).1⟩

/-! ## C5: the max-decisions ceiling -/

theorem stepItem_sp (env : SyncEnv) (skip ext : Bool) (s : SyncState) (x : BVADecisionSummary) :
    (stepItem env skip ext s x).synced + s.processed =
      (stepItem env skip ext s x).processed + s.synced := by
  unfold stepItem stepFetch stepParsed
  repeat' split
  all_goals (try simp)
  all_goals omega

theorem stepItem_ple (env : SyncEnv) (skip ext : Bool) (s : SyncState) (x : BVADecisionSummary) :
    (stepItem env skip ext s x).processed ≤ s.processed + 1 := by
  unfold stepItem stepFetch stepParsed
  repeat' split
  all_goals (try simp)

theorem runBatch_sp (env : SyncEnv) (skip ext : Bool) (maxd : Nat)
    (b : List BVADecisionSummary) : ∀ s : SyncState,
    (runBatch env skip ext maxd s b).synced + s.processed =
      (runBatch env skip ext maxd s b).processed + s.synced := by
  induction b with
  | nil => intro s; simp [runBatch]; omega
  | cons x xs ih =>
    intro s
    by_cases h : maxd ≤ s.processed
    · simp [runBatch, h]; omega
    · have h1 := stepItem_sp env skip ext s x
      have h2 := ih (stepItem env skip ext s x)
      simp only [runBatch, if_neg h]
      omega

theorem runBatch_ple (env : SyncEnv) (skip ext : Bool) (maxd : Nat)
    (b : List BVADecisionSummary) : ∀ s : SyncState, s.processed ≤ maxd →
    (runBatch env skip ext maxd s b).processed ≤ maxd := by
  induction b with
  | nil => intro s hs; simpa [runBatch] using hs
  | cons x xs ih =>
    intro s hs
    by_cases h : maxd ≤ s.processed
    · simpa [runBatch, h] using hs
    · have h1 := stepItem_ple env skip ext s x
      simp only [runBatch, if_neg h]
      exact ih _ (by omega)

theorem runBatches_sp (env : SyncEnv) (skip ext : Bool) (maxd : Nat)
    (bs : List (List BVADecisionSummary)) : ∀ s : SyncState,
    (runBatches env skip ext maxd s bs).1.synced + s.processed =
      (runBatches env skip ext maxd s bs).1.processed + s.synced := by
  induction bs with
  | nil => intro s; simp [runBatches]; omega
  | cons b bs ih =>
    intro s
    have h1 := runBatch_sp env skip ext maxd b s
    by_cases h : maxd ≤ (runBatch env skip ext maxd s b).processed
    · simpa [runBatches, h] using h1
    · have h2 := ih (runBatch env skip ext maxd s b)
      simp only [runBatches, if_neg h]
      omega

theorem runBatches_ple (env : SyncEnv) (skip ext : Bool) (maxd : Nat)
    (bs : List (List BVADecisionSummary)) : ∀ s : SyncState, s.processed ≤ maxd →
    (runBatches env skip ext maxd s bs).1.processed ≤ maxd := by
  induction bs with
  | nil => intro s hs; simpa [runBatches] using hs
  | cons b bs ih =>
    intro s hs
    have h1 := runBatch_ple env skip ext maxd b s hs
    by_cases h : maxd ≤ (runBatch env skip ext maxd s b).processed
    · simpa [runBatches, h] using h1
    · simp only [runBatches, if_neg h]
      exact ih _ h1

/-- Counterexample to C5 as stated: with `maxDecisions = 1` and an upstream
batch of three matches whose first item's detail fetch throws, the run
processes *two* items (both counted in `total`, both detail-fetched) before
the ceiling is reached, because the ceiling counter counts only successfully
synced items.  "At most m items are processed" fails. -/
theorem c5_counterexample :
    effectiveMax opts5.maxDecisions = 1 ∧
    (syncDecisions env5 opts5 [] [] [[sumA, sumB, sumC]] 0 0).result.total = 2 ∧
    (syncDecisions env5 opts5 [] [] [[sumA, sumB, sumC]] 0 0).result.synced = 1 ∧
    ((syncDecisions env5 opts5 [] [] [[sumA, sumB, sumC]] 0 0).trace.countP
      (fun e => match e with | SEv.detailFetch _ => true | _ => false)) = 2 := by
  exact ⟨rfl, by decide, by decide, by decide⟩

/-- C5 (amended): the ceiling (default 100) is checked before each item, but
the `decisionsProcessed` counter it checks counts only successfully synced
items: a run syncs at most `maxDecisions` items, while failed or skipped
items do not count toward the ceiling and may push the number of *attempted*
items above it.  Once the counter reaches the ceiling, the inner loop stops
before the next item and the outer iteration consumes no further batch (so no
further page is requested). -/
theorem c5_theorem (env : SyncEnv) (options : SyncOptions) (store0 : List StoredDecision)
    (meta0 : List SyncMetadataRec) (batches : List (List BVADecisionSummary)) (u0 c0 : Nat) :
    (syncDecisions env options store0 meta0 batches u0 c0).result.synced ≤
      effectiveMax options.maxDecisions ∧
    (∀ (skip ext : Bool) (maxd : Nat) (s : SyncState) (x : BVADecisionSummary)
        (xs : List BVADecisionSummary),
      runBatch env skip ext maxd s (x :: xs) =
        if maxd ≤ s.processed then s
        else runBatch env skip ext maxd (stepItem env skip ext s x) xs) ∧
    (∀ (skip ext : Bool) (maxd : Nat) (s : SyncState) (b : List BVADecisionSummary)
        (bs : List (List BVADecisionSummary)),
      maxd ≤ (runBatch env skip ext maxd s b).processed →
      runBatches env skip ext maxd s (b :: bs) = (runBatch env skip ext maxd s b, 1)) := by
  refine ⟨?_, fun skip ext maxd s x xs => rfl, fun skip ext maxd s b bs h => ?_⟩
  · have hsp := runBatches_sp env (truthyOpt options.skipExisting)
      (extractOn options.extractOutcomes) (effectiveMax options.maxDecisions) batches
      { store := store0, total := 0, synced := 0, skipped := 0, errors := [],
        processed := 0, u := u0, c := c0 + 1, trace := [] }
    have hple := runBatches_ple env (truthyOpt options.skipExisting)
      (extractOn options.extractOutcomes) (effectiveMax options.maxDecisions) batches
      { store := store0, total := 0, synced := 0, skipped := 0, errors := [],
        processed := 0, u := u0, c := c0 + 1, trace := [] } (Nat.zero_le _)
    simp at hsp hple
    simp only [syncDecisions]
    omega
  · simp [runBatches, h]

/-- Witness for C5 at a concrete ceiling hit. -/
theorem c5_witness :
    1 ≤ (runBatch env0 false false 1 stateZ [sumA]).processed ∧
    runBatches env0 false false 1 stateZ [[sumA], [sumB]] =
      (runBatch env0 false false 1 stateZ [sumA], 1) :=
  ⟨by decide,
    ( c5_theorem env0 {} [] [] [] 0 0).2.2 false false 1 stateZ [sumA] [[sumB]] (by decide)⟩

/-! ## C6: pagination over a simulated upstream -/

theorem fetchAll_false (search : Nat → Except String SearchResult) (fuel offset : Nat) :
    fetchAllDecisions search fuel offset false = [] := by
  cases fuel <;> simp [fetchAllDecisions]

theorem fetchAll_sim (f : Nat → BVADecisionSummary) (N : Nat) :
    ∀ (fuel offset : Nat), 0 < fuel → N ≤ 100 * fuel + offset →
    fetchAllDecisions (fun o => .ok (simPage f N o)) fuel offset true = simTrace f N offset := by
  intro fuel
  induction fuel with
  | zero => intro offset h0 _; omega
  | succ fl ih =>
    intro offset _ hN
    rw [show fetchAllDecisions (fun o => .ok (simPage f N o)) (fl + 1) offset true =
        ClientEv.request offset ::
          ((if 0 < (simPage f N offset).decisions.length then
              [ClientEv.batchEv (simPage f N offset).decisions] else []) ++
            (if (simPage f N offset).has_more then [ClientEv.delayEv 500] else []) ++
            fetchAllDecisions (fun o => .ok (simPage f N o)) fl (offset + 100)
              (simPage f N offset).has_more) from rfl]
    have h1 : (simPage f N offset).decisions = (List.range' offset (min 100 (N - offset))).map f :=
      rfl
    have h2 : (simPage f N offset).has_more = decide (offset + 100 < N) := rfl
    rw [h1, h2]
    by_cases ho : offset < N
    · have hlen : 0 < ((List.range' offset (min 100 (N - offset))).map f).length := by
        simp [List.length_range']
        omega
      by_cases hm : offset + 100 < N
      · have hfl : 0 < fl := by omega
        have hrec := ih (offset + 100) hfl (by omega)
        rw [simTrace, if_pos ho, if_pos hm]
        simp only [hlen, if_pos, decide_eq_true hm, if_true]
        simp [hrec]
      · rw [simTrace, if_pos ho, if_neg hm]
        have hd : decide (offset + 100 < N) = false := by simp [hm]
        simp [hlen, hd, fetchAll_false]
        all_goals omega
    · have hlen : ((List.range' offset (min 100 (N - offset))).map f).length = 0 := by
        simp [List.length_range']
        omega
      have hm : ¬ (offset + 100 < N) := by omega
      rw [simTrace, if_neg ho]
      have hd : decide (offset + 100 < N) = false := by simp [hm]
      simp [hlen, hd, fetchAll_false]

theorem simTrace_count_batch (f : Nat → BVADecisionSummary) (N : Nat) : ∀ offset : Nat,
    (simTrace f N offset).countP isBatchEv = (N - offset + 99) / 100 := by
  have H : ∀ k offset, N - offset ≤ k →
      (simTrace f N offset).countP isBatchEv = (N - offset + 99) / 100 := by
    intro k
    induction k with
    | zero =>
      intro offset h0
      rw [simTrace, if_neg (by omega)]
      have : (N - offset + 99) / 100 = 0 := by omega
      simp [isBatchEv, this]
    | succ k ihk =>
      intro offset hk
      by_cases hx : offset < N
      · rw [simTrace, if_pos hx]
        by_cases hm : offset + 100 < N
        · rw [if_pos hm]
          simp only [List.countP_cons, isBatchEv]
          rw [ihk (offset + 100) (by omega)]
          have he : N - offset + 99 = (N - (offset + 100) + 99) + 100 := by omega
          rw [he, Nat.add_div_right _ (by norm_num)]
          simp
        · rw [if_neg hm]
          simp only [List.countP_cons, List.countP_nil, isBatchEv]
          have : (N - offset + 99) / 100 = 1 := by omega
          simp [this]
      · rw [simTrace, if_neg hx]
        have : (N - offset + 99) / 100 = 0 := by omega
        simp [isBatchEv, this]
  exact fun offset => H (N - offset) offset le_rfl

theorem simTrace_count_delay (f : Nat → BVADecisionSummary) (N : Nat) : ∀ offset : Nat,
    (simTrace f N offset).countP isDelayEv = (N - offset + 99) / 100 - 1 := by
  have H : ∀ k offset, N - offset ≤ k →
      (simTrace f N offset).countP isDelayEv = (N - offset + 99) / 100 - 1 := by
    intro k
    induction k with
    | zero =>
      intro offset h0
      rw [simTrace, if_neg (by omega)]
      simp [isDelayEv]
      omega
    | succ k ihk =>
      intro offset hk
      by_cases hx : offset < N
      · rw [simTrace, if_pos hx]
        by_cases hm : offset + 100 < N
        · rw [if_pos hm]
          simp only [List.countP_cons, isDelayEv]
          rw [ihk (offset + 100) (by omega)]
          simp
          omega
        · rw [if_neg hm]
          simp [isDelayEv]
          omega
      · rw [simTrace, if_neg hx]
        simp [isDelayEv]
        omega
  exact fun offset => H (N - offset) offset le_rfl

theorem simTrace_reqs (f : Nat → BVADecisionSummary) (N : Nat) : ∀ offset : Nat,
    reqOffsets (simTrace f N offset) =
      (List.range (max 1 ((N - offset + 99) / 100))).map (fun i => offset + 100 * i) := by
  have H : ∀ k offset, N - offset ≤ k →
      reqOffsets (simTrace f N offset) =
        (List.range (max 1 ((N - offset + 99) / 100))).map (fun i => offset + 100 * i) := by
    intro k
    induction k with
    | zero =>
      intro offset h0
      rw [simTrace, if_neg (by omega)]
      have hk : max 1 ((N - offset + 99) / 100) = 1 := by omega
      simp [reqOffsets, hk, show List.range 1 = [0] from rfl]
    | succ k ihk =>
      intro offset hk
      by_cases hx : offset < N
      · rw [simTrace, if_pos hx]
        by_cases hm : offset + 100 < N
        · rw [if_pos hm]
          have hk2 : max 1 ((N - offset + 99) / 100) = (N - (offset + 100) + 99) / 100 + 1 := by
            omega
          have ih' := ihk (offset + 100) (by omega)
          have hk3 : max 1 ((N - (offset + 100) + 99) / 100) = (N - (offset + 100) + 99) / 100 :=
            by omega
          rw [hk3] at ih'
          rw [hk2, List.range_succ_eq_map]
          simp only [reqOffsets, List.filterMap_cons] at ih' ⊢
          rw [ih']
          simp only [List.map_cons, List.map_map, Nat.mul_zero, Nat.add_zero]
          refine congrArg (List.cons offset) ?_
          refine List.map_congr_left (fun i _ => ?_)
          simp only [Function.comp]
          omega
        · rw [if_neg hm]
          have hk1 : max 1 ((N - offset + 99) / 100) = 1 := by omega
          simp [reqOffsets, hk1, show List.range 1 = [0] from rfl]
      · rw [simTrace, if_neg hx]
        have hk1 : max 1 ((N - offset + 99) / 100) = 1 := by omega
        simp [reqOffsets, hk1, show List.range 1 = [0] from rfl]
  exact fun offset => H (N - offset) offset le_rfl

/-- C6: against a simulated upstream with `N` matches and page size 100, and
any sufficient fuel, `fetchAllDecisions` produces the canonical pagination
trace: the requests start at offset 0 and advance by exactly 100
(`reqOffsets = [0, 100, 200, ...]`), exactly `⌈N/100⌉` batches are yielded,
iteration stops as soon as a page reports `has_more = false`, and the 500 ms
delay is inserted after every batch except the final one (delay count =
batch count − 1).  Independence from `fuel` expresses termination. -/
theorem c6_theorem (f : Nat → BVADecisionSummary) (N fuel : Nat)
    (h1 : 0 < fuel) (h2 : N ≤ 100 * fuel) :
    fetchAllDecisions (fun o => .ok (simPage f N o)) fuel 0 true = simTrace f N 0 ∧
    (fetchAllDecisions (fun o => .ok (simPage f N o)) fuel 0 true).countP isBatchEv =
      (N + 99) / 100 ∧
    (fetchAllDecisions (fun o => .ok (simPage f N o)) fuel 0 true).countP isDelayEv =
      (N + 99) / 100 - 1 ∧
    reqOffsets (fetchAllDecisions (fun o => .ok (simPage f N o)) fuel 0 true) =
      (List.range (max 1 ((N + 99) / 100))).map (fun i => 100 * i) := by
  have ht := fetchAll_sim f N fuel 0 h1 (by omega)
  refine ⟨ht, ?_, ?_, ?_⟩ <;> rw [ht]
  · simpa using simTrace_count_batch f N 0
  · simpa using simTrace_count_delay f N 0
  · have h := simTrace_reqs f N 0
    simpa using h

/-- Concrete simulated upstream items. -/
def simF (i : Nat) : BVADecisionSummary :=
  ⟨toString i, toString i, "2023-01-01", "AMA", [], "u"⟩

/-- Witness for C6 with 250 matches: 3 pages. -/
theorem c6_witness :
    (0 < 3 ∧ 250 ≤ 100 * 3) ∧
    (fetchAllDecisions (fun o => .ok (simPage simF 250 o)) 3 0 true).countP isBatchEv =
      (250 + 99) / 100 :=
  ⟨⟨by decide, by decide⟩, ( c6_theorem simF 250 3 (by decide) (by decide)).2.1⟩

/-! ## C1: idempotence machinery.

`eraseRec` blanks exactly the generated fields the conflict-update refreshes
on every re-sync — the internal id (a fresh `randomUUID`), `syncedAt` and
`lastUpdated` (fresh clock readings); two stores are "equal up to generated
fields" when their erasures coincide. -/

def eraseRec (r : StoredDecision) : StoredDecision :=
  { r with id := "", syncedAt := .tick 0, lastUpdated := .tick 0 }

def eraseStore (σ : List StoredDecision) : List StoredDecision := σ.map eraseRec

/-- The citation numbers of a store, in row order. -/
def cits (σ : List StoredDecision) : List String := σ.map (fun r => r.citationNumber)

/-- Upsert where the insert and update rows coincide (the erased level). -/
def upsertE (σ : List StoredDecision) (r : StoredDecision) : List StoredDecision :=
  upsertDecision σ r r

theorem eraseRec_citation (r : StoredDecision) :
    (eraseRec r).citationNumber = r.citationNumber := rfl

theorem hasCit_eraseStore (σ : List StoredDecision) (c : String) :
    hasCit (eraseStore σ) c = hasCit σ c := by
  induction σ with
  | nil => rfl
  | cons q t ih =>
    simp only [hasCit, eraseStore, List.map_cons, List.any_cons] at ih ⊢
    rw [eraseRec_citation, ih]

theorem hasCit_mem (σ : List StoredDecision) (c : String) :
    hasCit σ c = true ↔ c ∈ cits σ := by
  unfold hasCit cits
  rw [List.any_eq_true]
  constructor
  · rintro ⟨r, hr, he⟩
    exact List.mem_map.2 ⟨r, hr, beq_iff_eq.1 he⟩
  · intro hm
    rcases List.mem_map.1 hm with ⟨r, hr, he⟩
    exact ⟨r, hr, beq_iff_eq.2 he⟩

theorem cits_upsertDecision (σ : List StoredDecision) (ins upd : StoredDecision)
    (h : upd.citationNumber = ins.citationNumber) :
    cits (upsertDecision σ ins upd) =
      if hasCit σ ins.citationNumber then cits σ else cits σ ++ [ins.citationNumber] := by
  unfold upsertDecision
  by_cases hc : hasCit σ ins.citationNumber = true
  · rw [if_pos hc, if_pos hc]
    clear hc
    induction σ with
    | nil => rfl
    | cons q t ih =>
      simp only [cits, List.map_cons] at ih ⊢
      refine congrArg₂ List.cons ?_ ih
      by_cases hq : (q.citationNumber == ins.citationNumber) = true
      · rw [if_pos hq, h, beq_iff_eq.1 hq]
      · rw [if_neg hq]
  · rw [if_neg hc, if_neg hc]
    simp [cits]

theorem nodup_upsertDecision (σ : List StoredDecision) (ins upd : StoredDecision)
    (h : upd.citationNumber = ins.citationNumber) (hn : (cits σ).Nodup) :
    (cits (upsertDecision σ ins upd)).Nodup := by
  rw [cits_upsertDecision σ ins upd h]
  by_cases hc : hasCit σ ins.citationNumber = true
  · simpa [hc] using hn
  · rw [if_neg hc]
    have hmem : ins.citationNumber ∉ cits σ := fun hm => hc ((hasCit_mem σ _).2 hm)
    simp [List.nodup_append, hn, hmem]

theorem eraseStore_upsert (σ : List StoredDecision) (ins upd : StoredDecision)
    (_hcit : upd.citationNumber = ins.citationNumber) (herase : eraseRec upd = eraseRec ins) :
    eraseStore (upsertDecision σ ins upd) = upsertE (eraseStore σ) (eraseRec ins) := by
  unfold upsertE upsertDecision
  rw [hasCit_eraseStore, eraseRec_citation]
  by_cases hc : hasCit σ ins.citationNumber = true
  · rw [if_pos hc, if_pos hc]
    clear hc
    induction σ with
    | nil => rfl
    | cons q t ih =>
      simp only [eraseStore, List.map_cons] at ih ⊢
      refine congrArg₂ List.cons ?_ ih
      by_cases hq : (q.citationNumber == ins.citationNumber) = true
      · have hq' : ((eraseRec q).citationNumber == ins.citationNumber) = true := by
          rw [eraseRec_citation]; exact hq
        rw [if_pos hq, if_pos hq']
        exact herase
      · have hq' : ¬ ((eraseRec q).citationNumber == ins.citationNumber) = true := by
          rw [eraseRec_citation]; exact hq
        rw [if_neg hq, if_neg hq']
  · rw [if_neg hc, if_neg hc]
    simp [eraseStore]

theorem lookupCit_upsertE_self (σ : List StoredDecision) (r : StoredDecision) :
    lookupCit (upsertE σ r) r.citationNumber = some r := by
  unfold upsertE upsertDecision lookupCit
  by_cases hc : hasCit σ r.citationNumber = true
  · rw [if_pos hc]
    exact find?_overwrite _ _ _ (by simp) hc
  · rw [if_neg hc]
    have hc' : σ.any (fun q => q.citationNumber == r.citationNumber) = false := by
      simp only [Bool.not_eq_true] at hc
      exact hc
    exact find?_append_single _ _ _ (by simp) hc'

theorem find?_overwrite_other {α : Type} (p pr : α → Bool) (row : α) (l : List α)
    (hpr : ∀ a, pr a = true → p a = false) (hrow : p row = false) :
    (l.map (fun a => if pr a then row else a)).find? p = l.find? p := by
  induction l with
  | nil => rfl
  | cons a t ih =>
    simp only [List.map_cons]
    by_cases hpa : pr a = true
    · have h1 : p a = false := hpr a hpa
      rw [if_pos hpa]
      rw [List.find?_cons_of_neg _ (by simp [hrow]), List.find?_cons_of_neg _ (by simp [h1])]
      exact ih
    · rw [if_neg hpa]
      cases hp : p a with
      | true =>
        rw [List.find?_cons_of_pos _ hp, List.find?_cons_of_pos _ hp]
      | false =>
        rw [List.find?_cons_of_neg _ (by simp [hp]), List.find?_cons_of_neg _ (by simp [hp])]
        exact ih

theorem lookupCit_upsertE_other (σ : List StoredDecision) (r : StoredDecision) (c : String)
    (h : c ≠ r.citationNumber) :
    lookupCit (upsertE σ r) c = lookupCit σ c := by
  unfold upsertE upsertDecision lookupCit
  by_cases hc : hasCit σ r.citationNumber = true
  · rw [if_pos hc]
    refine find?_overwrite_other _ _ _ _ (fun a ha => ?_) (by simp [Ne.symm h])
    have : a.citationNumber = r.citationNumber := beq_iff_eq.1 ha
    simp [this, Ne.symm h]
  · rw [if_neg hc]
    rw [List.find?_append]
    cases hf : σ.find? (fun q => q.citationNumber == c) with
    | some q => simp
    | none => simp [Ne.symm h]

/-- The last record with citation `c` in an upsert sequence. -/
def lastWith (c : String) (E : List StoredDecision) : Option StoredDecision :=
  E.reverse.find? (fun r => r.citationNumber == c)

theorem lastWith_cons (c : String) (r : StoredDecision) (E : List StoredDecision) :
    lastWith c (r :: E) =
      match lastWith c E with
      | some q => some q
      | none => if r.citationNumber == c then some r else none := by
  unfold lastWith
  rw [List.reverse_cons, List.find?_append]
  cases h : E.reverse.find? (fun q => q.citationNumber == c) with
  | some q => simp
  | none =>
    simp only [Option.none_or]
    cases hr : (r.citationNumber == c) <;> simp [List.find?, hr]

theorem lookupCit_foldl (E : List StoredDecision) : ∀ (σ : List StoredDecision) (c : String),
    lookupCit (E.foldl upsertE σ) c =
      match lastWith c E with
      | some r => some r
      | none => lookupCit σ c := by
  induction E with
  | nil => intro σ c; simp [lastWith]
  | cons r E ih =>
    intro σ c
    rw [List.foldl_cons, ih (upsertE σ r) c, lastWith_cons]
    cases h : lastWith c E with
    | some q => simp
    | none =>
      cases hr : (r.citationNumber == c) with
      | true =>
        have hc : c = r.citationNumber := (beq_iff_eq.1 hr).symm
        simp only [if_pos]
        rw [hc]
        simp [lookupCit_upsertE_self σ r]
      | false =>
        simp only [Bool.false_eq_true, if_false]
        exact lookupCit_upsertE_other σ r c (fun he => by simp [he] at hr)

theorem hasCit_upsertE_mono (σ : List StoredDecision) (r : StoredDecision) (c : String)
    (h : hasCit σ c = true) : hasCit (upsertE σ r) c = true := by
  rw [hasCit_mem] at h ⊢
  unfold upsertE
  rw [cits_upsertDecision σ r r rfl]
  by_cases hc : hasCit σ r.citationNumber = true
  · simpa [hc] using h
  · rw [if_neg hc]
    exact List.mem_append_left _ h

theorem hasCit_upsertE_self (σ : List StoredDecision) (r : StoredDecision) :
    hasCit (upsertE σ r) r.citationNumber = true := by
  rw [hasCit_mem]
  unfold upsertE
  rw [cits_upsertDecision σ r r rfl]
  by_cases hc : hasCit σ r.citationNumber = true
  · simpa [hc] using (hasCit_mem σ r.citationNumber).1 hc
  · rw [if_neg hc]
    exact List.mem_append_right _ (by simp)

theorem hasCit_foldl_mono (E : List StoredDecision) : ∀ (σ : List StoredDecision) (c : String),
    hasCit σ c = true → hasCit (E.foldl upsertE σ) c = true := by
  induction E with
  | nil => intro σ c h; simpa using h
  | cons r E ih =>
    intro σ c h
    rw [List.foldl_cons]
    exact ih (upsertE σ r) c (hasCit_upsertE_mono σ r c h)

theorem hasCit_foldl_mem (E : List StoredDecision) : ∀ (σ : List StoredDecision)
    (r : StoredDecision), r ∈ E → hasCit (E.foldl upsertE σ) r.citationNumber = true := by
  induction E with
  | nil => intro σ r h; cases h
  | cons q E ih =>
    intro σ r h
    rw [List.foldl_cons]
    rcases List.mem_cons.1 h with h | h
    · subst h
      exact hasCit_foldl_mono E (upsertE σ r) r.citationNumber (hasCit_upsertE_self σ r)
    · exact ih (upsertE σ q) r h

theorem cits_foldl_present (E : List StoredDecision) : ∀ σ : List StoredDecision,
    (∀ r ∈ E, hasCit σ r.citationNumber = true) → cits (E.foldl upsertE σ) = cits σ := by
  induction E with
  | nil => intro σ _; rfl
  | cons r E ih =>
    intro σ h
    rw [List.foldl_cons]
    have h1 : cits (upsertE σ r) = cits σ := by
      unfold upsertE
      rw [cits_upsertDecision σ r r rfl, if_pos (h r (List.mem_cons_self r E))]
    rw [ih (upsertE σ r) (fun q hq => by
      rw [hasCit_mem, h1, ← hasCit_mem]
      exact h q (List.mem_cons_of_mem r hq)), h1]

theorem nodup_foldl (E : List StoredDecision) : ∀ σ : List StoredDecision,
    (cits σ).Nodup → (cits (E.foldl upsertE σ)).Nodup := by
  induction E with
  | nil => intro σ h; simpa using h
  | cons r E ih =>
    intro σ h
    rw [List.foldl_cons]
    exact ih (upsertE σ r) (nodup_upsertDecision σ r r rfl h)

theorem store_ext : ∀ (σ₁ σ₂ : List StoredDecision), cits σ₁ = cits σ₂ → (cits σ₁).Nodup →
    (∀ c, lookupCit σ₁ c = lookupCit σ₂ c) → σ₁ = σ₂ := by
  intro σ₁
  induction σ₁ with
  | nil =>
    intro σ₂ hc _ _
    cases σ₂ with
    | nil => rfl
    | cons b t₂ => simp [cits] at hc
  | cons a t ih =>
    intro σ₂ hc hn hl
    cases σ₂ with
    | nil => simp [cits] at hc
    | cons b t₂ =>
      have hcc : a.citationNumber = b.citationNumber ∧ cits t = cits t₂ := by
        simpa [cits] using hc
      have hab : a = b := by
        have h1 := hl a.citationNumber
        rw [lookupCit, List.find?_cons_of_pos _ (by simp)] at h1
        rw [lookupCit, List.find?_cons_of_pos _ (by simp [hcc.1])] at h1
        exact Option.some.inj h1
      have hnt : (cits t).Nodup := by
        simp only [cits, List.map_cons, List.nodup_cons] at hn
        exact hn.2
      have hmem : a.citationNumber ∉ cits t := by
        simp only [cits, List.map_cons, List.nodup_cons] at hn
        exact hn.1
      have htail : t = t₂ := by
        refine ih t₂ hcc.2 hnt (fun c => ?_)
        by_cases hca : c = a.citationNumber
        · subst hca
          have hnone1 : lookupCit t a.citationNumber = none := by
            rw [lookupCit, List.find?_eq_none]
            intro q hq hbq
            exact hmem (List.mem_map.2 ⟨q, hq, beq_iff_eq.1 hbq⟩)
          have hnone2 : lookupCit t₂ a.citationNumber = none := by
            rw [lookupCit, List.find?_eq_none]
            intro q hq hbq
            refine hmem ?_
            show a.citationNumber ∈ cits t
            rw [hcc.2]
            exact List.mem_map.2 ⟨q, hq, beq_iff_eq.1 hbq⟩
          rw [hnone1, hnone2]
        · have hne : (a.citationNumber == c) = false := by
            simp only [beq_eq_false_iff_ne, ne_eq]
            exact fun h => hca h.symm
          have hne2 : (b.citationNumber == c) = false := by
            simp only [beq_eq_false_iff_ne, ne_eq]
            rw [← hcc.1]
            exact fun h => hca h.symm
          have h1 := hl c
          simp only [lookupCit, List.find?, hne, hne2] at h1 ⊢
          exact h1
      rw [hab, htail]

/-- Applying the same upsert sequence a second time, starting from the store
the first application produced from empty, changes nothing. -/
theorem foldl_upsertE_idem (E : List StoredDecision) :
    E.foldl upsertE (E.foldl upsertE []) = E.foldl upsertE [] := by
  have hcits : cits (E.foldl upsertE (E.foldl upsertE [])) = cits (E.foldl upsertE []) :=
    cits_foldl_present E (E.foldl upsertE [])
      (fun r hr => hasCit_foldl_mem E [] r hr)
  refine store_ext _ _ hcits ?_ ?_
  · rw [hcits]
    exact nodup_foldl E [] (by simp [cits])
  · intro c
    rw [lookupCit_foldl E (E.foldl upsertE []) c]
    cases h : lastWith c E with
    | some r =>
      rw [lookupCit_foldl E [] c, h]
    | none => simp

/-- Whether this item's processing reaches a successful upsert (with
`skipExisting` off this depends only on the oracles, not on the store). -/
def itemSyncs (env : SyncEnv) (x : BVADecisionSummary) : Bool :=
  match env.fetch x.citation_number with
  | .ok _ => (env.dbFail x.citation_number).isNone
  | .error _ => false

/-- The erased row an item writes — independent of the oracle cursors. -/
def eRow (env : SyncEnv) (ext : Bool) (d : BVADecisionDetail) : StoredDecision :=
  eraseRec (itemRow env ext d 0 0)

theorem eraseRec_itemRow (env : SyncEnv) (ext : Bool) (d : BVADecisionDetail) (u c : Nat) :
    eraseRec (itemRow env ext d u c) = eRow env ext d := rfl

/-- The erased rows a batch successfully upserts, with the ceiling counter
threaded through (same control flow as `runBatch` with `skipExisting` off). -/
def batchRecs (env : SyncEnv) (ext : Bool) (maxd : Nat) :
    Nat → List BVADecisionSummary → List StoredDecision × Nat
  | p, [] => ([], p)
  | p, x :: xs =>
    if maxd ≤ p then ([], p)
    else
      match env.fetch x.citation_number with
      | .error _ => batchRecs env ext maxd p xs
      | .ok d =>
        match env.dbFail x.citation_number with
        | some _ => batchRecs env ext maxd p xs
        | none =>
          let r := batchRecs env ext maxd (p + 1) xs
          (eRow env ext d :: r.1, r.2)

/-- The erased rows a whole batch stream upserts. -/
def allRecs (env : SyncEnv) (ext : Bool) (maxd : Nat) :
    Nat → List (List BVADecisionSummary) → List StoredDecision × Nat
  | p, [] => ([], p)
  | p, b :: bs =>
    let r := batchRecs env ext maxd p b
    if maxd ≤ r.2 then (r.1, r.2)
    else
      let r2 := allRecs env ext maxd r.2 bs
      (r.1 ++ r2.1, r2.2)

theorem runBatch_erase (env : SyncEnv) (ext : Bool) (maxd : Nat)
    (b : List BVADecisionSummary) : ∀ s : SyncState,
    eraseStore ((runBatch env false ext maxd s b).store) =
      (batchRecs env ext maxd s.processed b).1.foldl upsertE (eraseStore s.store) ∧
    (runBatch env false ext maxd s b).processed = (batchRecs env ext maxd s.processed b).2 := by
  induction b with
  | nil => intro s; simp [runBatch, batchRecs]
  | cons x xs ih =>
    intro s
    by_cases h : maxd ≤ s.processed
    · simp [runBatch, batchRecs, h]
    · simp only [runBatch, batchRecs, if_neg h]
      cases hfe : env.fetch x.citation_number with
      | error m =>
        have hst : (stepItem env false ext s x).store = s.store := by
          simp [stepItem, stepFetch, hfe]
        have hpr : (stepItem env false ext s x).processed = s.processed := by
          simp [stepItem, stepFetch, hfe]
        have hrec := ih (stepItem env false ext s x)
        rw [hst, hpr] at hrec
        exact hrec
      | ok d =>
        cases hdb : env.dbFail x.citation_number with
        | some m =>
          have hst : (stepItem env false ext s x).store = s.store := by
            simp [stepItem, stepFetch, stepParsed, hfe, hdb]
          have hpr : (stepItem env false ext s x).processed = s.processed := by
            simp [stepItem, stepFetch, stepParsed, hfe, hdb]
          have hrec := ih (stepItem env false ext s x)
          rw [hst, hpr] at hrec
          exact hrec
        | none =>
          have hst : (stepItem env false ext s x).store =
              upsertDecision s.store (itemRow env ext d s.u s.c)
                { itemRow env ext d s.u s.c with
                  lastUpdated := .tick (env.clock (s.c + 1)) } := by
            simp [stepItem, stepFetch, stepParsed, hfe, hdb]
          have hpr : (stepItem env false ext s x).processed = s.processed + 1 := by
            simp [stepItem, stepFetch, stepParsed, hfe, hdb]
          have hrec := ih (stepItem env false ext s x)
          rw [hst, hpr] at hrec
          have he : eraseStore (upsertDecision s.store (itemRow env ext d s.u s.c)
              { itemRow env ext d s.u s.c with
                lastUpdated := .tick (env.clock (s.c + 1)) }) =
              upsertE (eraseStore s.store) (eRow env ext d) := by
            rw [eraseStore_upsert s.store (itemRow env ext d s.u s.c)
              { itemRow env ext d s.u s.c with
                lastUpdated := DateV.tick (env.clock (s.c + 1)) } rfl rfl, eraseRec_itemRow]
          rw [he] at hrec
          refine ⟨?_, hrec.2⟩
          rw [hrec.1]
          simp [List.foldl_cons]

theorem runBatches_erase (env : SyncEnv) (ext : Bool) (maxd : Nat)
    (bs : List (List BVADecisionSummary)) : ∀ s : SyncState,
    eraseStore ((runBatches env false ext maxd s bs).1.store) =
      (allRecs env ext maxd s.processed bs).1.foldl upsertE (eraseStore s.store) ∧
    (runBatches env false ext maxd s bs).1.processed =
      (allRecs env ext maxd s.processed bs).2 := by
  induction bs with
  | nil => intro s; simp [runBatches, allRecs]
  | cons b bs ih =>
    intro s
    have hb := runBatch_erase env ext maxd b s
    by_cases h : maxd ≤ (runBatch env false ext maxd s b).processed
    · have h' : maxd ≤ (batchRecs env ext maxd s.processed b).2 := hb.2 ▸ h
      simp only [runBatches, allRecs, if_pos h, if_pos h']
      exact hb
    · have h' : ¬ maxd ≤ (batchRecs env ext maxd s.processed b).2 := fun hh => h (hb.2 ▸ hh)
      simp only [runBatches, allRecs, if_neg h, if_neg h']
      have hrec := ih (runBatch env false ext maxd s b)
      rw [hb.2] at hrec
      refine ⟨?_, hrec.2⟩
      rw [hrec.1, hb.1, List.foldl_append]

/-- Whatever the skip mode, a step either leaves the store unchanged or
performs one citation-keyed upsert. -/
theorem stepItem_store_cases (env : SyncEnv) (skip ext : Bool) (s : SyncState)
    (x : BVADecisionSummary) :
    (stepItem env skip ext s x).store = s.store ∨
    ∃ ins upd : StoredDecision, upd.citationNumber = ins.citationNumber ∧
      (stepItem env skip ext s x).store = upsertDecision s.store ins upd := by
  unfold stepItem stepFetch stepParsed
  repeat' split
  all_goals
    first
      | exact Or.inl rfl
      | (refine Or.inr ⟨_, _, ?_, rfl⟩; rfl)

theorem stepItem_store_nodup (env : SyncEnv) (skip ext : Bool) (s : SyncState)
    (x : BVADecisionSummary) (hn : (cits s.store).Nodup) :
    (cits ((stepItem env skip ext s x).store)).Nodup := by
  rcases stepItem_store_cases env skip ext s x with h | ⟨ins, upd, hcit, h⟩
  · rw [h]; exact hn
  · rw [h]; exact nodup_upsertDecision s.store ins upd hcit hn

theorem runBatch_store_nodup (env : SyncEnv) (skip ext : Bool) (maxd : Nat)
    (b : List BVADecisionSummary) : ∀ s : SyncState, (cits s.store).Nodup →
    (cits ((runBatch env skip ext maxd s b).store)).Nodup := by
  induction b with
  | nil => intro s hn; simpa [runBatch] using hn
  | cons x xs ih =>
    intro s hn
    by_cases h : maxd ≤ s.processed
    · simpa [runBatch, h] using hn
    · simp only [runBatch, if_neg h]
      exact ih _ (stepItem_store_nodup env skip ext s x hn)

theorem runBatches_store_nodup (env : SyncEnv) (skip ext : Bool) (maxd : Nat)
    (bs : List (List BVADecisionSummary)) : ∀ s : SyncState, (cits s.store).Nodup →
    (cits ((runBatches env skip ext maxd s bs).1.store)).Nodup := by
  induction bs with
  | nil => intro s hn; simpa [runBatches] using hn
  | cons b bs ih =>
    intro s hn
    have h1 := runBatch_store_nodup env skip ext maxd b s hn
    by_cases h : maxd ≤ (runBatch env skip ext maxd s b).processed
    · simpa [runBatches, h] using h1
    · simp only [runBatches, if_neg h]
      exact ih _ h1

/-! ## C1: the idempotence claim -/

def optsCE : SyncOptions :=
  { maxDecisions := some 1, skipExisting := some true, extractOutcomes := some false }

def optsID : SyncOptions := { skipExisting := some false, extractOutcomes := some false }

def runCE1 : SyncRunOut := syncDecisions env0 optsCE [] [] [[sumA, sumB]] 0 0

def runCE2 : SyncRunOut :=
  syncDecisions env0 optsCE runCE1.store runCE1.meta [[sumA, sumB]] runCE1.uFinal runCE1.cFinal

def runID1 : SyncRunOut := syncDecisions env0 optsID [] [] [[sumA]] 0 0

def runID2 : SyncRunOut :=
  syncDecisions env0 optsID runID1.store runID1.meta [[sumA]] runID1.uFinal runID1.cFinal

/-- Counterexample to C1 as stated, in both of its failure modes.  (1) With
`skipExisting` and a `maxDecisions` ceiling, two identical runs from an empty
store do *not* yield the same record set: run 1 (ceiling 1) syncs only
`23-0001`; run 2 skips it — skipped items do not count toward the ceiling —
and proceeds to sync `23-0002`, so the store grows.  (2) Even for a plain
re-sync of one item, the conflict-update overwrites the internal id with a
fresh `randomUUID()` (and `syncedAt`/`lastUpdated` with fresh clock
readings), so the rows after run 2 differ from those after run 1. -/
theorem c1_counterexample :
    cits runCE1.store = ["23-0001"] ∧
    cits runCE2.store = ["23-0001", "23-0002"] ∧
    runID1.store.map (fun r => r.id) = ["uuid-0"] ∧
    runID2.store.map (fun r => r.id) = ["uuid-1"] ∧
    runID2.store.map (fun r => r.id) ≠ runID1.store.map (fun r => r.id) :=
  ⟨by decide, by decide, by decide, by decide, by decide⟩

/-- C1 (amended): with `skipExisting` off, running `syncDecisions` twice with
identical options and oracles, the second run starting from the store the
first produced from empty (at any oracle cursor positions), yields the same
persisted record set up to the freshly generated internal id and the
`syncedAt`/`lastUpdated` timestamps, which the citation-number
conflict-update overwrites on every re-sync.  Citation numbers are unique
after each run, and every step preserves citation-number uniqueness of the
store (re-sync overwrites in place, never inserts a duplicate), whatever the
options. -/
theorem c1_theorem (env : SyncEnv) (options : SyncOptions)
    (batches : List (List BVADecisionSummary)) (meta0 meta1 : List SyncMetadataRec)
    (u0 c0 u1 c1 : Nat) (hskip : options.skipExisting ≠ some true) :
    eraseStore (syncDecisions env options
        (syncDecisions env options [] meta0 batches u0 c0).store meta1 batches u1 c1).store =
      eraseStore (syncDecisions env options [] meta0 batches u0 c0).store ∧
    (cits (syncDecisions env options [] meta0 batches u0 c0).store).Nodup ∧
    (cits (syncDecisions env options
      (syncDecisions env options [] meta0 batches u0 c0).store meta1 batches u1 c1).store).Nodup ∧
    ∀ (skip ext : Bool) (s : SyncState) (x : BVADecisionSummary),
      (cits s.store).Nodup → (cits ((stepItem env skip ext s x).store)).Nodup := by
  have hsk : truthyOpt options.skipExisting = false := by
    cases h : options.skipExisting with
    | none => rfl
    | some b =>
      cases b with
      | false => rfl
      | true => exact absurd h hskip
  have hstore : ∀ (σ : List StoredDecision) (m : List SyncMetadataRec) (u c : Nat),
      (syncDecisions env options σ m batches u c).store =
        (runBatches env false (extractOn options.extractOutcomes)
          (effectiveMax options.maxDecisions)
          { store := σ, total := 0, synced := 0, skipped := 0, errors := [],
            processed := 0, u := u, c := c + 1, trace := [] } batches).1.store := by
    intro σ m u c
    simp [syncDecisions, hsk]
  have h1 := runBatches_erase env (extractOn options.extractOutcomes)
    (effectiveMax options.maxDecisions) batches
    { store := [], total := 0, synced := 0, skipped := 0, errors := [],
      processed := 0, u := u0, c := c0 + 1, trace := [] }
  have h2 := runBatches_erase env (extractOn options.extractOutcomes)
    (effectiveMax options.maxDecisions) batches
    { store := (syncDecisions env options [] meta0 batches u0 c0).store,
      total := 0, synced := 0, skipped := 0, errors := [],
      processed := 0, u := u1, c := c1 + 1, trace := [] }
  refine ⟨?_, ?_, ?_, fun skip ext s x hn => stepItem_store_nodup env skip ext s x hn⟩
  · have h2' := h2
    rw [hstore [] meta0 u0 c0] at h2'
    rw [hstore (syncDecisions env options [] meta0 batches u0 c0).store meta1 u1 c1,
      hstore [] meta0 u0 c0]
    dsimp only at h1 h2' ⊢
    rw [h2'.1, h1.1]
    exact foldl_upsertE_idem _
  · rw [hstore [] meta0 u0 c0]
    exact runBatches_store_nodup env false (extractOn options.extractOutcomes)
      (effectiveMax options.maxDecisions) batches _ (by simp [cits])
  · rw [hstore (syncDecisions env options [] meta0 batches u0 c0).store meta1 u1 c1]
    refine runBatches_store_nodup env false (extractOn options.extractOutcomes)
      (effectiveMax options.maxDecisions) batches _ ?_
    rw [hstore [] meta0 u0 c0]
    exact runBatches_store_nodup env false (extractOn options.extractOutcomes)
      (effectiveMax options.maxDecisions) batches _ (by simp [cits])

/-- Witness for C1 on a concrete double run (`skipExisting` off). -/
theorem c1_witness :
    optsID.skipExisting ≠ some true ∧
    eraseStore runID2.store = eraseStore runID1.store ∧
    (cits runID1.store).Nodup :=
  ⟨by decide,
    ( c1_theorem env0 optsID [[sumA]] [] runID1.meta 0 0 runID1.uFinal runID1.cFinal
      (by decide)).1,
    ( c1_theorem env0 optsID [[sumA]] [] runID1.meta 0 0 runID1.uFinal runID1.cFinal
      (by decide)).2.1⟩

end BVA
